import Mathlib

/-!
Verification of the QA validation-and-repair engine in `tools/qa-check.py`.

The development shallowly embeds the engine: paths are segment lists
(mirroring `pathlib.Path` parts), the filesystem is an explicit record of
files and directories, JSON values are an inductive type with a strict
fuel-based parser modelling `json.loads`, and the HTML structure
extraction is modelled by an event-level step function mirroring the
`HTMLParser` callbacks, together with a character-level tag scanner used
where a concrete document must be evaluated.  Network probes and the HTML
parser of the standard library are passed in as an explicit environment,
since they are external to the program.
-/

namespace QACheck

/-! ## Python string primitives -/

/-- Whitespace as recognised by Python's `str.strip` / `\s` for ASCII input. -/
def pySpace (c : Char) : Bool :=
  c = ' ' ∨ c = '\t' ∨ c = '\n' ∨ c = '\x0d' ∨ c = '\x0b' ∨ c = '\x0c'

/-- Model of Python `str.strip()` on the character list. -/
def pyStripList (cs : List Char) : List Char :=
  ((cs.dropWhile pySpace).reverse.dropWhile pySpace).reverse

/-- Model of Python `str.strip()`. -/
def pyStrip (s : String) : String :=
  String.mk (pyStripList s.data)

/-- ASCII lower-casing of one character (Python `str.lower` on ASCII). -/
def pyLowerChar (c : Char) : Char :=
  if 'A' ≤ c ∧ c ≤ 'Z' then Char.ofNat (c.toNat + 32) else c

/-- ASCII lower-casing of a string. -/
def pyLower (s : String) : String :=
  String.mk (s.data.map pyLowerChar)

/-- Does `pat` occur at the head of `l`? -/
def leadsWith : List Char → List Char → Bool
  | [], _ => true
  | _ :: _, [] => false
  | p :: ps, c :: cs => p = c ∧ leadsWith ps cs

/-- Does `pat` occur anywhere inside `l` (Python `in` on strings)? -/
def listHas (pat l : List Char) : Bool :=
  match l with
  | [] => leadsWith pat []
  | _ :: cs => leadsWith pat l ∨ listHas pat cs

/-- Python `sub in s` for strings. -/
def strIn (sub s : String) : Bool :=
  listHas sub.data s.data

/-- Fuel-indexed worker for Python `str.replace(pat, rep)`; the fuel is
structural so that the function reduces, and `pat.length + 1` fuel per
remaining character suffices since every step consumes at least one
character. -/
def pyReplaceAux (pat rep : List Char) : Nat → List Char → List Char
  | 0, l => l
  | _ + 1, [] => []
  | fuel + 1, c :: cs =>
    if pat ≠ [] ∧ leadsWith pat (c :: cs) then
      rep ++ pyReplaceAux pat rep fuel ((c :: cs).drop pat.length)
    else
      c :: pyReplaceAux pat rep fuel cs

/-- Model of Python `str.replace(pat, rep)` (all occurrences, left to right).
The empty-pattern case returns the list unchanged; the single use site
passes the nonempty pattern `"test-"`. -/
def pyReplaceList (pat rep : List Char) (l : List Char) : List Char :=
  pyReplaceAux pat rep (l.length + 1) l

/-- Python `str.replace`. -/
def pyReplace (s pat rep : String) : String :=
  String.mk (pyReplaceList pat.data rep.data s.data)

/-- Python `str.lstrip("/")`. -/
def lstripSlashes (s : String) : String :=
  String.mk (s.data.dropWhile (· = '/'))

/-! ## Result tracking (`CheckResult`, `QAReport`) -/

/-- One check outcome: mirrors the `CheckResult` class.  The status is the
literal Python string; `details` is the ordered `(severity, message)` log. -/
structure CheckResult where
  name : String
  category : String
  status : String
  details : List (String × String)
deriving Repr, DecidableEq

/-- `CheckResult.__init__`: a fresh result starts as `"PASS"` with no details. -/
def CheckResult.init (name : String) (category : String := "general") : CheckResult :=
  { name := name, category := category, status := "PASS", details := [] }

/-- `CheckResult.fail`: unconditionally sets status to FAIL. -/
def CheckResult.fail (r : CheckResult) (msg : String) : CheckResult :=
  { r with status := "FAIL", details := r.details ++ [("FAIL", msg)] }

/-- `CheckResult.warn`: sets status to WARN only from PASS. -/
def CheckResult.warn (r : CheckResult) (msg : String) : CheckResult :=
  { r with status := if r.status = "PASS" then "WARN" else r.status,
           details := r.details ++ [("WARN", msg)] }

/-- `CheckResult.ok`: appends a PASS detail, status untouched. -/
def CheckResult.ok (r : CheckResult) (msg : String) : CheckResult :=
  { r with details := r.details ++ [("PASS", msg)] }

/-- `CheckResult.fixed`: unconditionally sets status to FIXED. -/
def CheckResult.fixed (r : CheckResult) (msg : String) : CheckResult :=
  { r with status := "FIXED", details := r.details ++ [("FIXED", msg)] }

/-- `CheckResult.info`: appends an INFO detail, status untouched. -/
def CheckResult.info (r : CheckResult) (msg : String) : CheckResult :=
  { r with details := r.details ++ [("INFO", msg)] }

/-- The run-wide report: ordered results plus the fix-action counter.
Timestamps are not modelled (wall-clock time). -/
structure QAReport where
  results : List CheckResult
  fixes_applied : Nat
deriving Repr, DecidableEq

/-- The report a run starts from. -/
def QAReport.empty : QAReport :=
  { results := [], fixes_applied := 0 }

/-- `QAReport.add`. -/
def QAReport.add (rep : QAReport) (r : CheckResult) : QAReport :=
  { rep with results := rep.results ++ [r] }

/-- `QAReport.total`. -/
def QAReport.total (rep : QAReport) : Nat :=
  rep.results.length

/-- `QAReport.passed`. -/
def QAReport.passed (rep : QAReport) : Nat :=
  (rep.results.filter (fun r => r.status = "PASS")).length

/-- `QAReport.failed`. -/
def QAReport.failed (rep : QAReport) : Nat :=
  (rep.results.filter (fun r => r.status = "FAIL")).length

/-- `QAReport.warnings`. -/
def QAReport.warnings (rep : QAReport) : Nat :=
  (rep.results.filter (fun r => r.status = "WARN")).length

/-- `QAReport.fixedCount` (`QAReport.fixed` in the source). -/
def QAReport.fixedCount (rep : QAReport) : Nat :=
  (rep.results.filter (fun r => r.status = "FIXED")).length

/-- `QAReport.all_passed`: overall health is `failed == 0`. -/
def QAReport.all_passed (rep : QAReport) : Bool :=
  rep.failed = 0

/-- Python `s.startswith(pre)`. -/
def strStarts (s pre : String) : Bool :=
  leadsWith pre.data s.data

/-- Python `s.startswith((p, q))`. -/
def strStarts2 (s p q : String) : Bool :=
  strStarts s p ∨ strStarts s q

/-- Python `s.startswith((p, q, r))`. -/
def strStarts3 (s p q r : String) : Bool :=
  strStarts s p ∨ strStarts s q ∨ strStarts s r

/-- Python `s.startswith((p, q, r, t))`. -/
def strStarts4 (s p q r t : String) : Bool :=
  strStarts s p ∨ strStarts s q ∨ strStarts s r ∨ strStarts s t

/-! ## Paths and the filesystem

A path is its `pathlib` part list: building a `Path` from a string splits
on `/` and drops empty and `.` segments (keeping `..`, which `pathlib`
preserves textually); `Path./` appends parts.  The OS-level `..`
resolution performed by `exists()`/`stat()` is applied by the filesystem
model at every access. -/

/-- A path as its `pathlib.Path` parts. -/
abbrev QPath := List String

/-- Split a character list on `/`. -/
def splitSlash : List Char → List (List Char)
  | [] => [[]]
  | c :: r =>
    if c = '/' then [] :: splitSlash r
    else
      match splitSlash r with
      | [] => [[c]]
      | s :: ss => (c :: s) :: ss

/-- `pathlib.Path(s)`: split on `/`, drop empty and `.` parts. -/
def pathOfString (s : String) : QPath :=
  ((splitSlash s.data).map String.mk).filter (fun seg => seg ≠ "" ∧ seg ≠ ".")

/-- OS-level resolution of `..` parts, as `exists()`/`stat()` see a path. -/
def resolvePath (p : QPath) : QPath :=
  p.foldl (fun acc seg =>
    if seg = "" ∨ seg = "." then acc
    else if seg = ".." then acc.dropLast
    else acc ++ [seg]) []

/-- A query or fragment delimiter. -/
def qfStop (c : Char) : Bool :=
  c = '?' ∨ c = '#'

/-- `str(target).split("?")[0].split("#")[0]` followed by re-reading the
string as a path: truncate at the first part containing `?` or `#`,
dropping that part when the cut leaves it empty or `.` (as `Path`
re-parsing does), and drop all later parts. -/
def stripQF : QPath → QPath
  | [] => []
  | seg :: rest =>
    if seg.data.any qfStop then
      let cut := String.mk (seg.data.takeWhile (fun c => !qfStop c))
      if cut ≠ "" ∧ cut ≠ "." then [cut] else []
    else seg :: stripQF rest

/-- The filesystem: file contents and the set of directories, both keyed
by resolved paths.  File sizes are byte... character counts of the (ASCII)
contents. -/
structure FS where
  files : List (QPath × String)
  dirs : List QPath
deriving Repr, DecidableEq

/-- `Path.exists()`: true for a file or a directory. -/
def FS.existsPath (fs : FS) (p : QPath) : Bool :=
  fs.files.any (fun e => e.1 == resolvePath p) ∨ fs.dirs.any (fun d => d == resolvePath p)

/-- `Path.is_dir()`. -/
def FS.isDir (fs : FS) (p : QPath) : Bool :=
  fs.dirs.any (fun d => d == resolvePath p)

/-- `Path.read_text()`; `none` when the path is not a regular file. -/
def FS.readFile (fs : FS) (p : QPath) : Option String :=
  (fs.files.find? (fun e => e.1 == resolvePath p)).map (fun e => e.2)

/-- `Path.stat().st_size`, for paths known to exist; directories report a
conventional nonzero block size. -/
def FS.statSize (fs : FS) (p : QPath) : Nat :=
  match fs.readFile p with
  | some c => c.length
  | none => if fs.isDir p then 4096 else 0

/-- `Path.write_text(content)`: replaces the file at the resolved path. -/
def FS.writeFile (fs : FS) (p : QPath) (content : String) : FS :=
  { fs with files :=
      (resolvePath p, content) :: fs.files.filter (fun e => ¬(e.1 == resolvePath p)) }

/-- All nonempty proper prefixes of a path: the chain of its ancestors. -/
def pathAncestors (p : QPath) : List QPath :=
  (List.range p.length).filterMap (fun n => if n = 0 then none else some (p.take n))

/-- `path.parent.mkdir(parents=True, exist_ok=True)`: make every ancestor
of `p` a directory. -/
def FS.mkdirParents (fs : FS) (p : QPath) : FS :=
  { fs with dirs := pathAncestors (resolvePath p) ++ fs.dirs }

/-- The names listed by `dir.iterdir()`: direct children among files and
directories, each once. -/
def FS.childNames (fs : FS) (dir : QPath) : List String :=
  let r := resolvePath dir
  let pick : QPath → Option String := fun p =>
    if p.take r.length == r ∧ p.length == r.length + 1 then p.getLast? else none
  ((fs.dirs.filterMap pick) ++ (fs.files.filterMap (fun e => pick e.1))).eraseDups

/-! ## Configuration constants -/

def BASE_URL : String := "http://clawdbot-web/clawdbot/"
def PROJECTS_URL : String := BASE_URL ++ "projects/"
def PUBLIC_DIR : QPath := ["public", "clawdbot"]
def PROJECTS_DIR : QPath := PUBLIC_DIR ++ ["projects"]
def INDEX_JSON : QPath := PROJECTS_DIR ++ ["index.json"]
def MAIN_INDEX : QPath := PUBLIC_DIR ++ ["index.html"]

/-- `str(path)` for messages: parts joined by `/`. -/
def pathStr (p : QPath) : String :=
  String.intercalate "/" p

/-! ## Natural sort (`_natural_sort_key`) -/

theorem length_dropWhile_le {α : Type} (p : α → Bool) (l : List α) :
    (l.dropWhile p).length ≤ l.length := by
  induction l with
  | nil => simp
  | cons c cs ih =>
    by_cases h : p c
    · simp only [List.dropWhile_cons, h, if_true, List.length_cons]
      omega
    · simp [List.dropWhile_cons, h]

/-- Fuel-indexed helper for `re.split(r'(\d+)', s)`: `acc` holds the
reversed pending non-digit chunk; one unit of fuel per remaining
character suffices. -/
def reSplitAux : Nat → List Char → List Char → List (List Char)
  | 0, acc, rest => [acc.reverse ++ rest]
  | _ + 1, acc, [] => [acc.reverse]
  | fuel + 1, acc, c :: rest =>
    if c.isDigit then
      acc.reverse :: ((c :: rest).takeWhile Char.isDigit)
        :: reSplitAux fuel [] ((c :: rest).dropWhile Char.isDigit)
    else
      reSplitAux fuel (c :: acc) rest

/-- `re.split(r'(\d+)', s)`: alternating non-digit / digit chunks,
including the (possibly empty) boundary chunks, as the Python call
returns them. -/
def reSplitDigits (cs : List Char) : List (List Char) :=
  reSplitAux (cs.length + 1) [] cs

/-- One token of `_natural_sort_key`: `int(t)` for digit runs, `t.lower()`
otherwise. -/
def natSortTok (chunk : List Char) : String ⊕ Nat :=
  if chunk ≠ [] ∧ chunk.all Char.isDigit then
    Sum.inr (chunk.foldl (fun acc c => acc * 10 + (c.toNat - 48)) 0)
  else
    Sum.inl (pyLower (String.mk chunk))

/-- `_natural_sort_key`. -/
def naturalSortKey (s : String) : List (String ⊕ Nat) :=
  (reSplitDigits s.data).map natSortTok

/-- Python list/element comparison on sort keys.  Comparing a string token
with a numeric token raises `TypeError` in Python; the model orders
strings below numbers there, a case no `test-N`-shaped name exercises. -/
def tokLe (a b : String ⊕ Nat) : Bool :=
  match a, b with
  | Sum.inl x, Sum.inl y => x ≤ y
  | Sum.inr x, Sum.inr y => x ≤ y
  | Sum.inl _, Sum.inr _ => true
  | Sum.inr _, Sum.inl _ => false

/-- Lexicographic `≤` on key lists (Python list comparison). -/
def keyLe : List (String ⊕ Nat) → List (String ⊕ Nat) → Bool
  | [], _ => true
  | _ :: _, [] => false
  | a :: as_, b :: bs => if a = b then keyLe as_ bs else tokLe a b ∧ ¬(a = b)

/-- Stable insertion into a sorted list: ties keep the incoming element
first, so the fold below is a stable sort, agreeing with Python's
`sorted`. -/
def insertLe {α : Type} (le : α → α → Bool) (x : α) : List α → List α
  | [] => [x]
  | y :: ys => if le x y then x :: y :: ys else y :: insertLe le x ys

/-- Stable sort by a boolean `≤` (Python `sorted`). -/
def sortLe {α : Type} (le : α → α → Bool) : List α → List α
  | [] => []
  | x :: xs => insertLe le x (sortLe le xs)

/-- `sorted(..., key=_natural_sort_key)`. -/
def naturalSort (names : List String) : List String :=
  sortLe (fun a b => keyLe (naturalSortKey a) (naturalSortKey b)) names

/-- `sorted(...)` on names (plain lexicographic order). -/
def lexSort (names : List String) : List String :=
  sortLe (fun a b => a ≤ b) names

/-! ## JSON: values, strict parser (`json.loads`), serializer (`json.dumps`)

Numbers keep their lexeme: the float canonicalisation `json.dumps`
applies to parsed numbers is not modelled (floating point), and no claim
inspects serialized number text. -/

inductive Json where
  | null : Json
  | jbool : Bool → Json
  | num : String → Json
  | str : String → Json
  | arr : List Json → Json
  | obj : List (String × Json) → Json
deriving Repr

/-- JSON whitespace. -/
def jWs (c : Char) : Bool :=
  c = ' ' ∨ c = '\t' ∨ c = '\n' ∨ c = '\x0d'

/-- Skip JSON whitespace. -/
def jskipWs (cs : List Char) : List Char :=
  cs.dropWhile jWs

/-- Hexadecimal digit value. -/
def hexVal (c : Char) : Option Nat :=
  if '0' ≤ c ∧ c ≤ '9' then some (c.toNat - 48)
  else if 'a' ≤ c ∧ c ≤ 'f' then some (c.toNat - 87)
  else if 'A' ≤ c ∧ c ≤ 'F' then some (c.toNat - 55)
  else none

/-- Parse the body of a JSON string (the opening quote already consumed);
`acc` is the reversed output. -/
def jparseStr : List Char → List Char → Option (String × List Char)
  | acc, [] => none
  | acc, '"' :: r => some (String.mk acc.reverse, r)
  | acc, '\\' :: r =>
    match r with
    | [] => none
    | e :: r2 =>
      if e = '"' then jparseStr ('"' :: acc) r2
      else if e = '\\' then jparseStr ('\\' :: acc) r2
      else if e = '/' then jparseStr ('/' :: acc) r2
      else if e = 'b' then jparseStr ('\x08' :: acc) r2
      else if e = 'f' then jparseStr ('\x0c' :: acc) r2
      else if e = 'n' then jparseStr ('\n' :: acc) r2
      else if e = 'r' then jparseStr ('\x0d' :: acc) r2
      else if e = 't' then jparseStr ('\t' :: acc) r2
      else if e = 'u' then
        match r2 with
        | h1 :: h2 :: h3 :: h4 :: r3 =>
          match hexVal h1, hexVal h2, hexVal h3, hexVal h4 with
          | some a, some b, some c, some d =>
            jparseStr (Char.ofNat (((a * 16 + b) * 16 + c) * 16 + d) :: acc) r3
          | _, _, _, _ => none
        | _ => none
      else none
  | acc, c :: r => if c.toNat < 32 then none else jparseStr (c :: acc) r

/-- Parse a strict JSON number at the head of the input, returning its
lexeme. -/
def jparseNum (cs : List Char) : Option (String × List Char) :=
  let step1 : Option (List Char × List Char) :=
    match cs with
    | '-' :: r => some (['-'], r)
    | r => some ([], r)
  match step1 with
  | none => none
  | some (sgn, r1) =>
    let intPart : Option (List Char × List Char) :=
      match r1 with
      | '0' :: r2 => some (['0'], r2)
      | c :: _ =>
        if c.isDigit ∧ c ≠ '0' then
          some (r1.takeWhile Char.isDigit, r1.dropWhile Char.isDigit)
        else none
      | [] => none
    match intPart with
    | none => none
    | some (ip, r2) =>
      let fracPart : Option (List Char × List Char) :=
        match r2 with
        | '.' :: r3 =>
          match r3.takeWhile Char.isDigit with
          | [] => none
          | ds => some ('.' :: ds, r3.dropWhile Char.isDigit)
        | _ => some ([], r2)
      match fracPart with
      | none => none
      | some (fp, r3) =>
        let expPart : Option (List Char × List Char) :=
          match r3 with
          | e :: r4 =>
            if e = 'e' ∨ e = 'E' then
              let (sgn2, r5) :=
                match r4 with
                | '+' :: r5 => (['+'], r5)
                | '-' :: r5 => (['-'], r5)
                | r5 => ([], r5)
              match r5.takeWhile Char.isDigit with
              | [] => none
              | ds => some (e :: (sgn2 ++ ds), r5.dropWhile Char.isDigit)
            else some ([], r3)
          | [] => some ([], r3)
        match expPart with
        | none => none
        | some (ep, r4) => some (String.mk (sgn ++ ip ++ fp ++ ep), r4)

mutual

/-- Strict JSON value parser (`json.loads` grammar, including the Python
extensions `NaN`, `Infinity` and `-Infinity`); fuel bounds recursion. -/
def jparseVal : Nat → List Char → Option (Json × List Char)
  | 0, _ => none
  | fuel + 1, cs =>
    match jskipWs cs with
    | [] => none
    | '{' :: r => jparseObjBody fuel r
    | '[' :: r => jparseArrBody fuel r
    | '"' :: r => (jparseStr [] r).map (fun p => (Json.str p.1, p.2))
    | c :: r =>
      if leadsWith "true".data (c :: r) then some (Json.jbool true, (c :: r).drop 4)
      else if leadsWith "false".data (c :: r) then some (Json.jbool false, (c :: r).drop 5)
      else if leadsWith "null".data (c :: r) then some (Json.null, (c :: r).drop 4)
      else if leadsWith "NaN".data (c :: r) then some (Json.num "nan", (c :: r).drop 3)
      else if leadsWith "Infinity".data (c :: r) then some (Json.num "inf", (c :: r).drop 8)
      else if leadsWith "-Infinity".data (c :: r) then some (Json.num "-inf", (c :: r).drop 9)
      else (jparseNum (c :: r)).map (fun p => (Json.num p.1, p.2))

/-- Array body after `[`. -/
def jparseArrBody : Nat → List Char → Option (Json × List Char)
  | 0, _ => none
  | fuel + 1, cs =>
    match jskipWs cs with
    | ']' :: r => some (Json.arr [], r)
    | _ =>
      match jparseVal fuel cs with
      | none => none
      | some (v, rest) => jparseArrLoop fuel [v] rest

/-- Array continuation: expects `,` or `]`. -/
def jparseArrLoop : Nat → List Json → List Char → Option (Json × List Char)
  | 0, _, _ => none
  | fuel + 1, acc, cs =>
    match jskipWs cs with
    | ']' :: r => some (Json.arr acc.reverse, r)
    | ',' :: r =>
      match jparseVal fuel r with
      | none => none
      | some (v, rest) => jparseArrLoop fuel (v :: acc) rest
    | _ => none

/-- Object body after `{`. -/
def jparseObjBody : Nat → List Char → Option (Json × List Char)
  | 0, _ => none
  | fuel + 1, cs =>
    match jskipWs cs with
    | '}' :: r => some (Json.obj [], r)
    | '"' :: r =>
      match jparseStr [] r with
      | none => none
      | some (k, rest) =>
        match jskipWs rest with
        | ':' :: r2 =>
          match jparseVal fuel r2 with
          | none => none
          | some (v, rest2) => jparseObjLoop fuel [(k, v)] rest2
        | _ => none
    | _ => none

/-- Object continuation: expects `,` or `}`. -/
def jparseObjLoop : Nat → List (String × Json) → List Char → Option (Json × List Char)
  | 0, _, _ => none
  | fuel + 1, acc, cs =>
    match jskipWs cs with
    | '}' :: r => some (Json.obj acc.reverse, r)
    | ',' :: r =>
      match jskipWs r with
      | '"' :: r2 =>
        match jparseStr [] r2 with
        | none => none
        | some (k, rest) =>
          match jskipWs rest with
          | ':' :: r3 =>
            match jparseVal fuel r3 with
            | none => none
            | some (v, rest2) => jparseObjLoop fuel ((k, v) :: acc) rest2
          | _ => none
      | _ => none
    | _ => none

end

/-- `json.loads`: a strict parse of the whole text. -/
def json_loads (s : String) : Option Json :=
  match jparseVal (2 * s.data.length + 4) s.data with
  | some (v, rest) => if jskipWs rest = [] then some v else none
  | none => none

/-- Escape one character for `json.dumps(..., ensure_ascii=False)`. -/
def jescapeChar (c : Char) : List Char :=
  if c = '"' then ['\\', '"']
  else if c = '\\' then ['\\', '\\']
  else if c = '\n' then ['\\', 'n']
  else if c = '\x0d' then ['\\', 'r']
  else if c = '\t' then ['\\', 't']
  else if c = '\x08' then ['\\', 'b']
  else if c = '\x0c' then ['\\', 'f']
  else if c.toNat < 32 then
    ['\\', 'u', '0', '0',
     (Nat.digitChar (c.toNat / 16)), (Nat.digitChar (c.toNat % 16))]
  else [c]

/-- Serialize a JSON string literal. -/
def jdumpStr (s : String) : String :=
  "\"" ++ String.mk (s.data.flatMap jescapeChar) ++ "\""

/-- `n` spaces of indent. -/
def indentStr (n : Nat) : String :=
  String.mk (List.replicate n ' ')

mutual

/-- `json.dumps(v, indent=2, ensure_ascii=False)` at an indent level. -/
def jdumpsVal : Json → Nat → String
  | Json.null, _ => "null"
  | Json.jbool true, _ => "true"
  | Json.jbool false, _ => "false"
  | Json.num lex, _ => lex
  | Json.str s, _ => jdumpStr s
  | Json.arr [], _ => "[]"
  | Json.arr (e :: es), ind =>
    "[\n" ++ jdumpsItems (e :: es) (ind + 2) ++ "\n" ++ indentStr ind ++ "]"
  | Json.obj [], _ => "\x7b\x7d"
  | Json.obj (f :: fs), ind =>
    "\x7b\n" ++ jdumpsFields (f :: fs) (ind + 2) ++ "\n" ++ indentStr ind ++ "\x7d"

/-- Array items, comma/newline separated. -/
def jdumpsItems : List Json → Nat → String
  | [], _ => ""
  | [e], ind => indentStr ind ++ jdumpsVal e ind
  | e :: e2 :: es, ind =>
    indentStr ind ++ jdumpsVal e ind ++ ",\n" ++ jdumpsItems (e2 :: es) ind

/-- Object fields, comma/newline separated. -/
def jdumpsFields : List (String × Json) → Nat → String
  | [], _ => ""
  | [(k, v)], ind => indentStr ind ++ jdumpStr k ++ ": " ++ jdumpsVal v ind
  | (k, v) :: f2 :: fs, ind =>
    indentStr ind ++ jdumpStr k ++ ": " ++ jdumpsVal v ind ++ ",\n"
      ++ jdumpsFields (f2 :: fs) ind

end

/-- `json.dumps(v, indent=2, ensure_ascii=False)`. -/
def jdumps (v : Json) : String :=
  jdumpsVal v 0

/-- Python `len()` on a parsed JSON value (raises on scalars in Python;
after the array wrapping only the `arr` case is reachable). -/
def jsonLen : Json → Nat
  | Json.arr es => es.length
  | Json.obj fds => fds.length
  | Json.str s => s.length
  | _ => 0

/-- Key membership test on a parsed object (`field in entry`). -/
def Json.objHas (j : Json) (key : String) : Bool :=
  match j with
  | Json.obj fds => fds.any (fun f => f.1 == key)
  | _ => false

/-- `entry.get(key)`; duplicate keys resolve to the last one, as in a
Python dict built by `json.loads`. -/
def Json.objGet (j : Json) (key : String) : Option Json :=
  match j with
  | Json.obj fds => (fds.reverse.find? (fun f => f.1 == key)).map (fun f => f.2)
  | _ => none

/-- Is this value a Python dict (`isinstance(entry, dict)`)? -/
def Json.isObj : Json → Bool
  | Json.obj _ => true
  | _ => false

/-- Rendering of a JSON value inside a Python f-string (`{entry.get(...)}`).
Scalar cases match Python; container repr is approximated, and no claim
depends on it. -/
def jsonDisplay : Json → String
  | Json.null => "None"
  | Json.jbool true => "True"
  | Json.jbool false => "False"
  | Json.num lex => lex
  | Json.str s => s
  | v => jdumpsVal v 0

/-- `entry.get('name', '?')` as displayed in messages. -/
def entryName (e : Json) : String :=
  match e.objGet "name" with
  | some v => jsonDisplay v
  | none => "?"

/-- `entry.get('file', '')` coerced to the string the path operations
use.  A non-string value would make Python crash on the `/` operator;
the model reads it as the empty string instead, and the claims about
entries restrict attention to string-valued or absent `file` fields. -/
def entryFileRef (e : Json) : String :=
  match e.objGet "file" with
  | some (Json.str s) => s
  | _ => ""

/-! ## Manifest auto-fix: `_fix_broken_json` -/

/-- Python `s.endswith(suf)`. -/
def strEnds (s suf : String) : Bool :=
  leadsWith suf.data.reverse s.data.reverse

/-- Fuel-indexed worker for the trailing-comma removal; one unit of fuel
per remaining character suffices. -/
def stripTCAux : Nat → List Char → List Char
  | 0, cs => cs
  | _ + 1, [] => []
  | fuel + 1, ',' :: r =>
    match r.dropWhile pySpace with
    | b :: rest =>
      if b = '}' ∨ b = ']' then b :: stripTCAux fuel rest
      else ',' :: stripTCAux fuel r
    | [] => ',' :: r
  | fuel + 1, c :: r => c :: stripTCAux fuel r

/-- Remove `,\s*` before a closing `]` or `}` (the `re.sub` of
`_fix_broken_json`), single left-to-right pass. -/
def stripTrailingCommasList (cs : List Char) : List Char :=
  stripTCAux (cs.length + 1) cs

/-- The best-effort textual repair of `_fix_broken_json`: strip the raw
text, remove trailing commas before closing brackets, and wrap in array
delimiters when absent. -/
def patchJsonText (raw : String) : String :=
  let s1 := pyStrip raw
  let s2 := String.mk (stripTrailingCommasList s1.data)
  let s3 := if strStarts s2 "[" then s2 else "[" ++ s2
  if strEnds s3 "]" then s3 else s3 ++ "]"

/-- `_fix_broken_json`: patch, strictly reparse, and only on success
persist the re-serialized data and record FIXED; on failure record FAIL
and leave the filesystem untouched.  It does not receive the report, so
`fixes_applied` is out of its reach. -/
def fix_broken_json (result : CheckResult) (raw : String) (fs : FS) :
    CheckResult × FS :=
  let fixed := patchJsonText raw
  match json_loads fixed with
  | some data =>
    (result.fixed ("Repaired JSON (" ++ toString (jsonLen data) ++ " entries recovered)"),
     fs.writeFile INDEX_JSON (jdumps data ++ "\n"))
  | none => (result.fail "Could not auto-repair JSON", fs)

/-! ## HTML structure facts (`HTMLStructureValidator`) -/

/-- The facts the validator accumulates.  The `_tag_stack` field of the
class is appended to but never read, so it is not modelled. -/
structure HTMLFacts where
  has_doctype : Bool
  has_html : Bool
  has_head : Bool
  has_body : Bool
  has_title : Bool
  links : List String
  asset_refs : List (String × String)
  in_title : Bool
  title_text : String
deriving Repr, DecidableEq

/-- The validator's `__init__` state. -/
def HTMLFacts.start : HTMLFacts :=
  { has_doctype := false, has_html := false, has_head := false,
    has_body := false, has_title := false, links := [], asset_refs := [],
    in_title := false, title_text := "" }

/-- `dict(attrs)` lookup: later duplicate keys win. -/
def dictGet (attrs : List (String × String)) (key : String) : Option String :=
  (attrs.reverse.find? (fun a => a.1 == key)).map (fun a => a.2)

/-- `key in dict(attrs)`. -/
def dictHas (attrs : List (String × String)) (key : String) : Bool :=
  attrs.any (fun a => a.1 == key)

/-- `dict(attrs).get(key, d)`.  A valueless HTML attribute, `None` in
Python, reads as `""` here; both are falsy where the code tests them. -/
def dictGetD (attrs : List (String × String)) (key d : String) : String :=
  (dictGet attrs key).getD d

/-- `HTMLStructureValidator.handle_starttag`. -/
def handle_starttag (st : HTMLFacts) (tag : String)
    (attrs : List (String × String)) : HTMLFacts :=
  let tl := pyLower tag
  let st :=
    if tl = "html" then { st with has_html := true }
    else if tl = "head" then { st with has_head := true }
    else if tl = "body" then { st with has_body := true }
    else if tl = "title" then { st with has_title := true, in_title := true }
    else st
  let st :=
    if tl = "a" ∧ dictHas attrs "href" then
      let href := dictGetD attrs "href" ""
      if href ≠ "" ∧ ¬ strStarts4 href "#" "mailto:" "javascript:" "tel:" then
        { st with links := st.links ++ [href] }
      else st
    else st
  if tl = "link" ∧ pyLower (dictGetD attrs "rel" "") = "stylesheet" then
    let href := dictGetD attrs "href" ""
    if href ≠ "" then { st with asset_refs := st.asset_refs ++ [("css", href)] }
    else st
  else if tl = "script" ∧ dictHas attrs "src" then
    { st with asset_refs := st.asset_refs ++ [("js", dictGetD attrs "src" "")] }
  else if tl = "img" ∧ dictHas attrs "src" then
    { st with asset_refs := st.asset_refs ++ [("img", dictGetD attrs "src" "")] }
  else st

/-- `HTMLStructureValidator.handle_endtag`. -/
def handle_endtag (st : HTMLFacts) (tag : String) : HTMLFacts :=
  if pyLower tag = "title" then { st with in_title := false } else st

/-- `HTMLStructureValidator.handle_data` (chunking is irrelevant: the
model feeds one character per event). -/
def handle_data_char (st : HTMLFacts) (c : Char) : HTMLFacts :=
  if st.in_title then { st with title_text := st.title_text.push c } else st

/-- One parser callback event. -/
inductive HEv where
  | start : String → List (String × String) → HEv
  | close : String → HEv
  | text : Char → HEv
deriving Repr

/-- Dispatch one event to the validator callbacks. -/
def hstep (st : HTMLFacts) : HEv → HTMLFacts
  | HEv.start tag attrs => handle_starttag st tag attrs
  | HEv.close tag => handle_endtag st tag
  | HEv.text c => handle_data_char st c

/-- Case-insensitive prefix match (`pat` given in lower case). -/
def leadsWithCI : List Char → List Char → Bool
  | [], _ => true
  | _ :: _, [] => false
  | p :: ps, c :: cs => pyLowerChar c = p ∧ leadsWithCI ps cs

/-- Does `re.search(r'<!DOCTYPE\s+html', ..., re.IGNORECASE)` match at
the head of the input? -/
def matchDoctypeAt (cs : List Char) : Bool :=
  if leadsWithCI "<!doctype".data cs then
    match cs.drop 9 with
    | [] => false
    | c :: r => pySpace c ∧ leadsWithCI "html".data (r.dropWhile pySpace)
  else false

/-- `re.search` for the doctype pattern: try every position. -/
def searchDoctype : List Char → Bool
  | [] => false
  | c :: r => matchDoctypeAt (c :: r) ∨ searchDoctype r

/-! ## The environment: stdlib HTML parser and network

`feed` stands for `HTMLParser.feed` on a fresh validator: it returns the
accumulated facts together with `some message` when parsing raised.
`probe` stands for `http_get`, returning the status code (`-1` for a
transport error). -/

structure Env where
  feed : String → HTMLFacts × Option String
  probe : String → Int

/-- `url_accessible`: HTTP 200 only. -/
def url_accessible (env : Env) (url : String) : Bool :=
  env.probe url == 200

/-! ## Auto-fix actions -/

/-- The synthesized pending manifest entry for a directory. -/
def mkPendingEntry (dirName : String) : Json :=
  let num := pyReplace dirName "test-" ""
  Json.obj
    [("name", Json.str ("Test " ++ num ++ ": TBD")),
     ("description", Json.str "Test pendiente de documentacion"),
     ("icon", Json.str "fa-question"),
     ("status", Json.str "PENDING"),
     ("file", Json.str (dirName ++ "/index.html")),
     ("tags", Json.arr [Json.str "pending"])]

/-- The entries `_fix_create_index_json` synthesizes: one pending entry
per content directory, in natural sort order. -/
def createIndexEntries (fs : FS) : List Json :=
  if fs.existsPath PROJECTS_DIR then
    ((naturalSort (fs.childNames PROJECTS_DIR)).filter
        (fun n => fs.isDir (PROJECTS_DIR ++ [n]))).map mkPendingEntry
  else []

/-- `_fix_create_index_json`. -/
def fix_create_index_json (result : CheckResult) (report : QAReport) (fs : FS) :
    CheckResult × QAReport × FS :=
  let entries := createIndexEntries fs
  let fs := fs.mkdirParents INDEX_JSON
  let fs := fs.writeFile INDEX_JSON (jdumps (Json.arr entries) ++ "\n")
  (result.fixed ("Created index.json with " ++ toString entries.length ++ " entries"),
   { report with fixes_applied := report.fixes_applied + 1 }, fs)

/-- `_fix_add_index_entry`. -/
def fix_add_index_entry (result : CheckResult) (data : List Json)
    (dirName : String) (report : QAReport) (fs : FS) :
    CheckResult × List Json × QAReport × FS :=
  let data := data ++ [mkPendingEntry dirName]
  let fs := fs.writeFile INDEX_JSON (jdumps (Json.arr data) ++ "\n")
  (result.fixed ("Added '" ++ dirName ++ "' to index.json"), data,
   { report with fixes_applied := report.fixes_applied + 1 }, fs)

/-- The fixed text of the placeholder page before the first interpolated
test number. -/
def phPre : String :=
  "<!DOCTYPE html>\n<html lang=\"en\">\n<head>\n    <meta charset=\"UTF-8\">\n    <meta name=\"viewport\" content=\"width=device-width, initial-scale=1.0\">\n    <title>Test "

/-- The fixed placeholder text between the two interpolated numbers. -/
def phMid : String :=
  " - OpenClaw</title>\n    <style>\n        body \x7b font-family: system-ui, sans-serif; max-width: 800px; margin: 2rem auto; padding: 1rem; \x7d\n        .pending \x7b color: #f7931e; font-style: italic; \x7d\n    </style>\n</head>\n<body>\n    <h1>Test "

/-- The fixed placeholder text after the second interpolated number. -/
def phPost : String :=
  "</h1>\n    <p class=\"pending\">This test page is pending content.</p>\n    <p><a href=\"../\">Back to projects</a></p>\n</body>\n</html>\n"

/-- The generated placeholder page text (the f-string of
`_fix_create_placeholder`, literal braces written as escapes). -/
def placeholderHtml (dirName : String) : String :=
  let num := pyReplace dirName "test-" ""
  phPre ++ num ++ phMid ++ num ++ phPost

/-- `_fix_create_placeholder`. -/
def fix_create_placeholder (result : CheckResult) (filePath : QPath)
    (dirName : String) (report : QAReport) (fs : FS) :
    CheckResult × QAReport × FS :=
  let fs := fs.mkdirParents filePath
  let fs := fs.writeFile filePath (placeholderHtml dirName)
  (result.fixed ("Created placeholder " ++ pathStr filePath),
   { report with fixes_applied := report.fixes_applied + 1 }, fs)

/-! ## Check functions -/

/-- `_check_html_structure`. -/
def check_html_structure (result : CheckResult) (v : HTMLFacts)
    (verbose : Bool) : CheckResult :=
  [(v.has_doctype, "DOCTYPE declaration"), (v.has_html, "<html> tag"),
   (v.has_head, "<head> tag"), (v.has_body, "<body> tag")].foldl
    (fun r pl =>
      if pl.1 then (if verbose then r.ok ("Has " ++ pl.2) else r)
      else r.warn ("Missing " ++ pl.2)) result

/-- Resolution of a non-absolute link or asset reference: a root-relative
reference resolves against the site root and any other against the page
directory; then the query/fragment strip is applied before any existence
check. -/
def linkTarget (pageDir : QPath) (ref : String) : QPath :=
  stripQF (if strStarts ref "/" then PUBLIC_DIR ++ pathOfString (lstripSlashes ref)
           else pageDir ++ pathOfString ref)

/-- One iteration of the `_check_internal_links` loop; the accumulator is
`(result, checked, broken)`. -/
def linkStep (env : Env) (fs : FS) (pageDir : QPath) (verbose : Bool)
    (acc : CheckResult × Nat × Nat) (href : String) : CheckResult × Nat × Nat :=
  let result := acc.1
  let checked := acc.2.1
  let broken := acc.2.2
  if strStarts3 href "http://" "https://" "//" then
    if ¬(strIn "clawdbot-web" href ∨ strIn "pulpouplatform.com" href) then
      (result, checked, broken)
    else if url_accessible env href then
      ((if verbose then result.ok ("Link OK: " ++ href) else result),
       checked + 1, broken)
    else
      (result.fail ("Broken link: " ++ href), checked + 1, broken + 1)
  else
    let target := linkTarget pageDir href
    if fs.existsPath target ∨ (fs.isDir target ∧ fs.existsPath (target ++ ["index.html"])) then
      ((if verbose then result.ok ("Link OK: " ++ href) else result),
       checked + 1, broken)
    else
      (result.fail ("Broken internal link: " ++ href ++ " (resolved to "
          ++ pathStr target ++ ")"),
       checked + 1, broken + 1)

/-- `_check_internal_links`. -/
def check_internal_links (env : Env) (fs : FS) (result : CheckResult)
    (v : HTMLFacts) (pageDir : QPath) (verbose : Bool) : CheckResult :=
  if v.links = [] then
    (if verbose then result.info "No internal links found" else result)
  else
    let out := v.links.foldl (linkStep env fs pageDir verbose) (result, 0, 0)
    if out.2.1 > 0 ∧ out.2.2 = 0 then
      out.1.ok ("All " ++ toString out.2.1 ++ " internal links valid")
    else out.1

/-- One iteration of the `_check_assets` loop. -/
def assetStep (env : Env) (fs : FS) (pageDir : QPath) (verbose : Bool)
    (acc : CheckResult × Nat × Nat) (ar : String × String) :
    CheckResult × Nat × Nat :=
  let result := acc.1
  let checked := acc.2.1
  let broken := acc.2.2
  let asset_type := ar.1
  let ref := ar.2
  if strStarts2 ref "data:" "blob:" then acc
  else if strStarts3 ref "http://" "https://" "//" then
    let url := if ¬ strStarts ref "//" then ref else "http:" ++ ref
    if url_accessible env url then
      ((if verbose then result.ok ("Asset OK (" ++ asset_type ++ "): " ++ ref) else result),
       checked + 1, broken)
    else
      (result.warn ("Unreachable asset (" ++ asset_type ++ "): " ++ ref),
       checked + 1, broken + 1)
  else
    let target := linkTarget pageDir ref
    if fs.existsPath target then
      ((if verbose then result.ok ("Asset OK (" ++ asset_type ++ "): " ++ ref) else result),
       checked + 1, broken)
    else
      (result.fail ("Missing local asset (" ++ asset_type ++ "): " ++ ref),
       checked + 1, broken + 1)

/-- `_check_assets`. -/
def check_assets (env : Env) (fs : FS) (result : CheckResult)
    (v : HTMLFacts) (pageDir : QPath) (verbose : Bool) : CheckResult :=
  if v.asset_refs = [] then
    (if verbose then result.info "No asset references found" else result)
  else
    let out := v.asset_refs.foldl (assetStep env fs pageDir verbose) (result, 0, 0)
    if out.2.1 > 0 ∧ out.2.2 = 0 then
      out.1.ok ("All " ++ toString out.2.1 ++ " assets verified")
    else out.1

/-- `check_main_index` (the appended result; no filesystem writes). -/
def check_main_index (env : Env) (fs : FS) (verbose : Bool) : CheckResult :=
  let result := CheckResult.init "Main index.html" "structure"
  if ¬ fs.existsPath MAIN_INDEX then
    result.fail ("File not found: " ++ pathStr MAIN_INDEX)
  else
    let content := (fs.readFile MAIN_INDEX).getD ""
    if (pyStrip content).length = 0 then result.fail "Main index.html is empty"
    else
      let result := result.ok ("File exists (" ++ toString content.length ++ " bytes)")
      let fe := env.feed content
      let result :=
        match fe.2 with
        | some e => result.warn ("HTML parse error: " ++ e)
        | none => result
      let result := check_html_structure result fe.1 verbose
      let code := env.probe BASE_URL
      if code == 200 then result.ok ("HTTP 200 from " ++ BASE_URL)
      else result.fail ("HTTP " ++ toString code ++ " from " ++ BASE_URL)

/-- One manifest-entry validation step (the `for i, entry in
enumerate(data)` body); the accumulator carries the running index. -/
def checkEntry (fs : FS) (verbose : Bool) (acc : CheckResult × Nat)
    (entry : Json) : CheckResult × Nat :=
  let result := acc.1
  let i := acc.2
  if ¬ entry.isObj then
    (result.fail ("Entry " ++ toString i ++ " is not an object"), i + 1)
  else
    let result :=
      if ¬ entry.objHas "name" then
        result.warn ("Entry " ++ toString i ++ " (" ++ entryName entry ++ "): missing 'name'")
      else result
    let result :=
      if ¬ entry.objHas "file" then
        result.warn ("Entry " ++ toString i ++ " (" ++ entryName entry ++ "): missing 'file'")
      else result
    let file_ref := entryFileRef entry
    let result :=
      if file_ref ≠ "" then
        let file_path := PROJECTS_DIR ++ pathOfString file_ref
        if ¬ fs.existsPath file_path then
          result.fail ("Entry '" ++ entryName entry ++ "': file not found: " ++ file_ref)
        else if fs.statSize file_path = 0 then
          result.fail ("Entry '" ++ entryName entry ++ "': file is empty: " ++ file_ref)
        else if verbose then
          result.ok ("Entry '" ++ entryName entry ++ "': " ++ file_ref ++ " OK")
        else result
      else result
    (result, i + 1)

/-- The directory prefixes referenced by manifest entries
(`indexed_dirs`). -/
def indexedDirs (data : List Json) : List String :=
  data.filterMap (fun e =>
    let f := entryFileRef e
    if strIn "/" f then some (String.mk (f.data.takeWhile (fun c => c ≠ '/'))) else none)

/-- One iteration of the cross-check loop over content directories. -/
def crossStep (fix : Bool) (dirsIndexed : List String)
    (acc : CheckResult × List Json × QAReport × FS) (dname : String) :
    CheckResult × List Json × QAReport × FS :=
  let result := acc.1
  let data := acc.2.1
  let report := acc.2.2.1
  let fs := acc.2.2.2
  if fs.isDir (PROJECTS_DIR ++ [dname]) ∧ ¬ dirsIndexed.contains dname then
    let result := result.warn ("Directory '" ++ dname ++ "' exists but has no index.json entry")
    if fix then fix_add_index_entry result data dname report fs
    else (result, data, report, fs)
  else acc

/-- `check_index_json`. -/
def check_index_json (verbose fix : Bool) (report : QAReport) (fs : FS) :
    QAReport × FS :=
  let result := CheckResult.init "index.json validation" "data"
  if ¬ fs.existsPath INDEX_JSON then
    let result := result.fail ("File not found: " ++ pathStr INDEX_JSON)
    if fix then
      let out := fix_create_index_json result report fs
      (out.2.1.add out.1, out.2.2)
    else (report.add result, fs)
  else
    let raw := (fs.readFile INDEX_JSON).getD ""
    if (pyStrip raw).length = 0 then
      let result := result.fail "index.json is empty"
      if fix then
        let out := fix_create_index_json result report fs
        (out.2.1.add out.1, out.2.2)
      else (report.add result, fs)
    else
      match json_loads raw with
      | none =>
        let result := result.fail "Invalid JSON: (details elided)"
        if fix then
          let out := fix_broken_json result raw fs
          (report.add out.1, out.2)
        else (report.add result, fs)
      | some parsed =>
        match parsed with
        | Json.arr data =>
          let result := result.ok ("Valid JSON array with " ++ toString data.length ++ " entries")
          let result := (data.foldl (checkEntry fs verbose) (result, 0)).1
          if fs.existsPath PROJECTS_DIR then
            let names := lexSort (fs.childNames PROJECTS_DIR)
            let out := names.foldl (crossStep fix (indexedDirs data))
              (result, data, report, fs)
            (out.2.2.1.add out.1, out.2.2.2)
          else (report.add result, fs)
        | _ => (report.add (result.fail "index.json root is not an array"), fs)

/-- The per-directory body of `check_project_pages`. -/
def checkPage (env : Env) (verbose fix : Bool) (report : QAReport) (fs : FS)
    (dirName : String) : CheckResult × QAReport × FS :=
  let result := CheckResult.init ("Page: " ++ dirName) "page"
  let index_file : QPath := PROJECTS_DIR ++ [dirName, "index.html"]
  if ¬ fs.existsPath index_file then
    let result := result.fail "index.html does not exist"
    if fix then fix_create_placeholder result index_file dirName report fs
    else (result, report, fs)
  else
    let content := (fs.readFile index_file).getD ""
    if (pyStrip content).length = 0 then
      let result := result.fail "index.html is empty (0 bytes)"
      if fix then fix_create_placeholder result index_file dirName report fs
      else (result, report, fs)
    else
      let result := result.ok ("File exists (" ++ toString content.length ++ " bytes)")
      let fe := env.feed content
      match fe.2 with
      | some e => (result.warn ("HTML parse error: " ++ e), report, fs)
      | none =>
        let result := check_html_structure result fe.1 verbose
        let page_url := PROJECTS_URL ++ dirName ++ "/index.html"
        let code := env.probe page_url
        let result :=
          if code == 200 then result.ok "HTTP 200 OK"
          else result.fail ("HTTP " ++ toString code ++ " from " ++ page_url)
        let page_dir := PROJECTS_DIR ++ [dirName]
        let result := check_internal_links env fs result fe.1 page_dir verbose
        let result := check_assets env fs result fe.1 page_dir verbose
        (result, report, fs)

/-- `check_project_pages`: one `CheckResult` per content directory, in
natural sort order, threading fixes through the filesystem. -/
def check_project_pages (env : Env) (verbose fix : Bool) (report : QAReport)
    (fs : FS) : QAReport × FS :=
  if ¬ fs.existsPath PROJECTS_DIR then
    let r := (CheckResult.init "Projects directory" "structure").fail
      ("Directory not found: " ++ pathStr PROJECTS_DIR)
    (report.add r, fs)
  else
    let test_dirs := naturalSort
      ((fs.childNames PROJECTS_DIR).filter (fun n => fs.isDir (PROJECTS_DIR ++ [n])))
    test_dirs.foldl (fun acc n =>
      let out := checkPage env verbose fix acc.1 acc.2 n
      (out.2.1.add out.1, out.2.2)) (report, fs)

/-- The check sequence of `main` (report rendering is presentation only
and not modelled). -/
def runQA (env : Env) (fix verbose : Bool) (fs : FS) : QAReport × FS :=
  let report := (QAReport.empty).add (check_main_index env fs verbose)
  let out := check_index_json verbose fix report fs
  check_project_pages env verbose fix out.1 out.2

/-- The process exit status `main` returns. -/
def mainExitCode (env : Env) (fix verbose : Bool) (fs : FS) : Nat :=
  if (runQA env fix verbose fs).1.all_passed then 0 else 1

/-! ## Shared concrete instances for witnesses -/

/-- An environment whose parser never raises and whose probe always
answers 200. -/
def envOK : Env :=
  ⟨fun _ => (HTMLFacts.start, none), fun _ => 200⟩

/-- An empty filesystem. -/
def fsEmpty : FS := ⟨[], []⟩

/-! ## Claim theorems -/

/-- Claim C1: `all_passed` holds exactly when the count of FAIL results is
zero; results with status WARN or FIXED never make `all_passed` false; and
the process exit status is 0 when `all_passed` holds and 1 otherwise. -/
theorem claim_c1_overall_health (env : Env) (fix verbose : Bool) (fs : FS) :
    ((runQA env fix verbose fs).1.all_passed = true
      ↔ (runQA env fix verbose fs).1.failed = 0)
    ∧ mainExitCode env fix verbose fs
        = (if (runQA env fix verbose fs).1.failed = 0 then 0 else 1)
    ∧ (∀ (rep : QAReport) (r : CheckResult),
        r.status = "WARN" ∨ r.status = "FIXED" →
        (rep.add r).all_passed = rep.all_passed) := by
  refine ⟨by simp [QAReport.all_passed], ?_, ?_⟩
  · simp only [mainExitCode, QAReport.all_passed]
    by_cases h : (runQA env fix verbose fs).1.failed = 0 <;> simp [h]
  · intro rep r h
    have hr : (r.status = "FAIL") = False := by
      rcases h with h | h <;> simp [h]
    simp [QAReport.all_passed, QAReport.add, QAReport.failed,
      List.filter_append, List.filter, hr]

/-- Witness for C1 at a concrete run and a concrete WARN result. -/
theorem claim_c1_overall_health_witness :
    (QAReport.add ⟨[], 0⟩ ((CheckResult.init "w").warn "m")).all_passed
      = (QAReport.all_passed ⟨[], 0⟩) :=
  (claim_c1_overall_health envOK false false fsEmpty).2.2 ⟨[], 0⟩
    ((CheckResult.init "w").warn "m") (Or.inl rfl)

/-- Claim C2: `fail()` unconditionally sets FAIL; `warn()` moves the
status to WARN only from PASS (an existing FAIL is kept); `fixed()`
unconditionally sets FIXED, even over a FAIL recorded earlier on the same
result. -/
theorem claim_c2_status_escalation (r : CheckResult) (m m2 : String) :
    (r.fail m).status = "FAIL"
    ∧ (r.warn m).status = (if r.status = "PASS" then "WARN" else r.status)
    ∧ ((r.fail m).warn m2).status = "FAIL"
    ∧ (r.fixed m).status = "FIXED"
    ∧ ((r.fail m).fixed m2).status = "FIXED" := by
  refine ⟨rfl, rfl, ?_, rfl, rfl⟩
  simp [CheckResult.fail, CheckResult.warn]

/-- Claim C3: the manifest repair persists only a patch that strictly
reparses; when the reparse fails the status is FAIL and the filesystem is
returned untouched. -/
theorem claim_c3_json_repair (result : CheckResult) (raw : String) (fs : FS) :
    (json_loads (patchJsonText raw) = none →
      (fix_broken_json result raw fs).1.status = "FAIL"
      ∧ (fix_broken_json result raw fs).2 = fs)
    ∧ (∀ d, json_loads (patchJsonText raw) = some d →
      (fix_broken_json result raw fs).1.status = "FIXED"
      ∧ (fix_broken_json result raw fs).2
          = fs.writeFile INDEX_JSON (jdumps d ++ "\n")) := by
  constructor
  · intro h
    simp [fix_broken_json, h, CheckResult.fail, CheckResult.fixed]
  · intro d h
    simp [fix_broken_json, h, CheckResult.fail, CheckResult.fixed]

theorem dictHas_of_dictGet (attrs : List (String × String)) (key v : String)
    (h : dictGet attrs key = some v) : dictHas attrs key = true := by
  simp only [dictGet, Option.map_eq_some'] at h
  obtain ⟨a, ha, hv⟩ := h
  have hp := List.find?_some ha
  have hm := List.mem_reverse.mp (List.mem_of_find?_eq_some ha)
  simp only [dictHas, List.any_eq_true]
  exact ⟨a, hm, hp⟩

theorem FS.readFile_writeFile (fs : FS) (p : QPath) (c : String) :
    (fs.writeFile p c).readFile p = some c := by
  simp [FS.readFile, FS.writeFile, List.find?]

theorem FS.readFile_mkdirParents (fs : FS) (p q : QPath) :
    (fs.mkdirParents q).readFile p = fs.readFile p := by
  simp [FS.readFile, FS.mkdirParents]

theorem FS.existsPath_of_isDir (fs : FS) (p : QPath) (h : fs.isDir p = true) :
    fs.existsPath p = true := by
  simp only [FS.isDir] at h
  simp [FS.existsPath, h]

/-- Claim C4 counterexample: with auto-fix enabled on a manifest whose
text is invalid but repairable, the run records a FIXED outcome while the
report's fix-action counter stays 0 — the repair action never increments
`fixes_applied`. -/
theorem claim_c4_counterexample :
    ((check_index_json false true QAReport.empty
        ⟨[(INDEX_JSON, "[1,]")], [["public"], PUBLIC_DIR, PROJECTS_DIR]⟩).1.results.map
      CheckResult.status) = ["FIXED"]
    ∧ (check_index_json false true QAReport.empty
        ⟨[(INDEX_JSON, "[1,]")], [["public"], PUBLIC_DIR, PROJECTS_DIR]⟩).1.fixes_applied
      = 0 := by
  constructor <;> rfl

/-- Claim C4 (amended): the create-manifest, append-entry and
create-placeholder fix actions each increment `fixes_applied` by exactly
one, record FIXED and leave their write readable in the returned
filesystem; the malformed-manifest repair records FIXED and completes its
write, but does not touch the counter (it never receives the report). -/
theorem claim_c4_fix_actions (result : CheckResult) (report : QAReport)
    (fs : FS) (dirName : String) (p : QPath) (data : List Json) (raw : String) :
    ((fix_create_index_json result report fs).2.1.fixes_applied
        = report.fixes_applied + 1
      ∧ (fix_create_index_json result report fs).1.status = "FIXED"
      ∧ (fix_create_index_json result report fs).2.2.readFile INDEX_JSON
          = some (jdumps (Json.arr (createIndexEntries fs)) ++ "\n"))
    ∧ ((fix_add_index_entry result data dirName report fs).2.2.1.fixes_applied
        = report.fixes_applied + 1
      ∧ (fix_add_index_entry result data dirName report fs).1.status = "FIXED"
      ∧ (fix_add_index_entry result data dirName report fs).2.2.2.readFile INDEX_JSON
          = some (jdumps (Json.arr (data ++ [mkPendingEntry dirName])) ++ "\n"))
    ∧ ((fix_create_placeholder result p dirName report fs).2.1.fixes_applied
        = report.fixes_applied + 1
      ∧ (fix_create_placeholder result p dirName report fs).1.status = "FIXED"
      ∧ (fix_create_placeholder result p dirName report fs).2.2.readFile p
          = some (placeholderHtml dirName))
    ∧ (∀ d, json_loads (patchJsonText raw) = some d →
        (fix_broken_json result raw fs).1.status = "FIXED"
        ∧ (fix_broken_json result raw fs).2.readFile INDEX_JSON
            = some (jdumps d ++ "\n")) := by
  refine ⟨⟨rfl, rfl, ?_⟩, ⟨rfl, rfl, ?_⟩, ⟨rfl, rfl, ?_⟩, ?_⟩
  · simp [fix_create_index_json, FS.readFile_writeFile]
  · simp [fix_add_index_entry, FS.readFile_writeFile]
  · simp [fix_create_placeholder, FS.readFile_writeFile]
  · intro d h
    refine ⟨?_, ?_⟩ <;>
      simp [fix_broken_json, h, CheckResult.fixed, FS.readFile_writeFile]

/-- Witness for C4 (amended) at the concrete repairable text `"[1,]"`. -/
theorem claim_c4_fix_actions_witness :
    (fix_broken_json (CheckResult.init "x") "[1,]" fsEmpty).1.status = "FIXED"
    ∧ (fix_broken_json (CheckResult.init "x") "[1,]" fsEmpty).2.readFile INDEX_JSON
        = some (jdumps (Json.arr [Json.num "1"]) ++ "\n") :=
  (claim_c4_fix_actions (CheckResult.init "x") ⟨[], 0⟩ fsEmpty "d" [] [] "[1,]").2.2.2
    (Json.arr [Json.num "1"]) rfl

/-- Claim C9 counterexample: an anchor whose href is the empty string
starts with none of the four excluded schemes, yet its href is not
appended to the link list. -/
theorem claim_c9_counterexample :
    strStarts4 "" "#" "mailto:" "javascript:" "tel:" = false
    ∧ (handle_starttag HTMLFacts.start "a" [("href", "")]).links = [] := by
  constructor <;> rfl

/-- Claim C9 (amended): an anchor's href is appended to the link list
unless it is empty or starts with `#`, `mailto:`, `javascript:` or
`tel:`; in particular `#top` and `mailto:a@b.com` are excluded; and a
scheme-absolute link on a foreign host leaves the link check independent
of the network probe — it is never probed. -/
theorem claim_c9_link_extraction (st : HTMLFacts)
    (attrs : List (String × String)) (href : String)
    (h : dictGet attrs "href" = some href) :
    ((handle_starttag st "a" attrs).links
      = st.links ++
        (if href ≠ "" ∧ ¬ strStarts4 href "#" "mailto:" "javascript:" "tel:"
         then [href] else []))
    ∧ (handle_starttag st "a" [("href", "#top")]).links = st.links
    ∧ (handle_starttag st "a" [("href", "mailto:a@b.com")]).links = st.links
    ∧ (∀ (env env' : Env) (fs : FS) (pageDir : QPath) (verbose : Bool)
        (acc : CheckResult × Nat × Nat) (url : String),
        strStarts3 url "http://" "https://" "//" = true →
        strIn "clawdbot-web" url = false →
        strIn "pulpouplatform.com" url = false →
        linkStep env fs pageDir verbose acc url
          = linkStep env' fs pageDir verbose acc url) := by
  have hhas := dictHas_of_dictGet attrs "href" href h
  have hget : dictGetD attrs "href" "" = href := by simp [dictGetD, h]
  refine ⟨?_, ?_, ?_, ?_⟩
  · have ha : pyLower "a" = "a" := rfl
    have e1 : (("a" : String) = "html") = False := eq_false (by decide)
    have e2 : (("a" : String) = "head") = False := eq_false (by decide)
    have e3 : (("a" : String) = "body") = False := eq_false (by decide)
    have e4 : (("a" : String) = "title") = False := eq_false (by decide)
    have e5 : (("a" : String) = "link") = False := eq_false (by decide)
    have e6 : (("a" : String) = "script") = False := eq_false (by decide)
    have e7 : (("a" : String) = "img") = False := eq_false (by decide)
    have e8 : (("a" : String) = "a") = True := eq_true rfl
    simp only [handle_starttag, ha, hget, hhas, e1, e2, e3, e4, e5, e6, e7, e8,
      if_false, if_true, false_and, true_and, ite_false, ite_true]
    split <;> rename_i hcond <;> simp [hcond]
  · simp [handle_starttag, dictGetD, dictGet, dictHas, pyLower, pyLowerChar,
      strStarts4, strStarts, leadsWith]
  · simp [handle_starttag, dictGetD, dictGet, dictHas, pyLower, pyLowerChar,
      strStarts4, strStarts, leadsWith]
  · intro env env' fs pageDir verbose acc url h1 h2 h3
    simp [linkStep, h1, h2, h3]

/-- Witness for C9 (amended): a plain relative href is collected, and the
foreign-host link check is the same under an all-200 probe and an
always-failing probe. -/
theorem claim_c9_link_extraction_witness :
    ((handle_starttag HTMLFacts.start "a" [("href", "x")]).links
      = HTMLFacts.start.links ++
        (if "x" ≠ "" ∧ ¬ strStarts4 "x" "#" "mailto:" "javascript:" "tel:"
         then ["x"] else []))
    ∧ linkStep envOK fsEmpty [] false (CheckResult.init "w", 0, 0)
        "https://unrelated.example.com/x"
      = linkStep ⟨fun _ => (HTMLFacts.start, none), fun _ => -1⟩ fsEmpty [] false
        (CheckResult.init "w", 0, 0) "https://unrelated.example.com/x" :=
  ⟨(claim_c9_link_extraction HTMLFacts.start [("href", "x")] "x" rfl).1,
   (claim_c9_link_extraction HTMLFacts.start [("href", "x")] "x" rfl).2.2.2
     envOK ⟨fun _ => (HTMLFacts.start, none), fun _ => -1⟩ fsEmpty [] false
     (CheckResult.init "w", 0, 0) "https://unrelated.example.com/x" rfl rfl rfl⟩

/-- Claim C7: per manifest entry, a missing `name` or `file` field emits a
WARN detail and the loop continues with the remaining entries; a `file`
reference that does not resolve emits FAIL; one resolving to a zero-byte
file emits FAIL "file is empty"; one resolving to a non-empty file emits
a PASS detail exactly in verbose mode. -/
theorem claim_c7_entry_checks (fs : FS) (verbose : Bool) (result : CheckResult)
    (i : Nat) (entry : Json) (rest : List Json) :
    (entry.isObj = true → entry.objHas "name" = false →
      ("WARN", "Entry " ++ toString i ++ " (" ++ entryName entry ++ "): missing 'name'")
        ∈ (checkEntry fs verbose (result, i) entry).1.details)
    ∧ (entry.isObj = true → entry.objHas "file" = false →
      ("WARN", "Entry " ++ toString i ++ " (" ++ entryName entry ++ "): missing 'file'")
        ∈ (checkEntry fs verbose (result, i) entry).1.details)
    ∧ ((entry :: rest).foldl (checkEntry fs verbose) (result, i)
        = rest.foldl (checkEntry fs verbose) (checkEntry fs verbose (result, i) entry))
    ∧ (entry.isObj = true → entryFileRef entry ≠ "" →
        fs.existsPath (PROJECTS_DIR ++ pathOfString (entryFileRef entry)) = false →
        ("FAIL", "Entry '" ++ entryName entry ++ "': file not found: " ++ entryFileRef entry)
          ∈ (checkEntry fs verbose (result, i) entry).1.details
        ∧ (checkEntry fs verbose (result, i) entry).1.status = "FAIL")
    ∧ (entry.isObj = true → entryFileRef entry ≠ "" →
        fs.existsPath (PROJECTS_DIR ++ pathOfString (entryFileRef entry)) = true →
        fs.statSize (PROJECTS_DIR ++ pathOfString (entryFileRef entry)) = 0 →
        ("FAIL", "Entry '" ++ entryName entry ++ "': file is empty: " ++ entryFileRef entry)
          ∈ (checkEntry fs verbose (result, i) entry).1.details
        ∧ (checkEntry fs verbose (result, i) entry).1.status = "FAIL")
    ∧ (entry.isObj = true → entryFileRef entry ≠ "" →
        fs.existsPath (PROJECTS_DIR ++ pathOfString (entryFileRef entry)) = true →
        fs.statSize (PROJECTS_DIR ++ pathOfString (entryFileRef entry)) ≠ 0 →
        ("PASS", "Entry '" ++ entryName entry ++ "': " ++ entryFileRef entry ++ " OK")
            ∉ result.details →
        ((("PASS", "Entry '" ++ entryName entry ++ "': " ++ entryFileRef entry ++ " OK")
            ∈ (checkEntry fs verbose (result, i) entry).1.details) ↔ verbose = true)) := by
  refine ⟨?_, ?_, rfl, ?_, ?_, ?_⟩
  · intro hobj hname
    simp only [checkEntry, hobj, hname]
    norm_num
    repeat' split
    all_goals
      simp_all [CheckResult.warn, CheckResult.fail, CheckResult.ok, List.mem_append]
  · intro hobj hfile
    simp only [checkEntry, hobj, hfile]
    norm_num
    repeat' split
    all_goals
      simp_all [CheckResult.warn, CheckResult.fail, CheckResult.ok, List.mem_append]
  · intro hobj href hmiss
    simp only [checkEntry, hobj, href, hmiss]
    norm_num
    repeat' split
    all_goals
      simp_all [CheckResult.warn, CheckResult.fail, CheckResult.ok, List.mem_append]
  · intro hobj href hex hzero
    simp only [checkEntry, hobj, href, hex, hzero]
    norm_num
    repeat' split
    all_goals
      simp_all [CheckResult.warn, CheckResult.fail, CheckResult.ok, List.mem_append]
  · intro hobj href hex hsz hnot
    simp only [checkEntry, hobj, href, hex, hsz]
    norm_num
    repeat' split
    all_goals
      cases verbose <;>
        simp_all [CheckResult.warn, CheckResult.ok, List.mem_append]

/-- A concrete filesystem for the C7 witness: one zero-byte page and one
non-empty page. -/
def fsC7 : FS :=
  ⟨[(PROJECTS_DIR ++ ["x", "index.html"], ""),
    (PROJECTS_DIR ++ ["y", "index.html"], "hi")], []⟩

/-- Witness for C7 on concrete entries and a concrete filesystem: an
entry without `name`, a dangling reference, a zero-byte reference and a
healthy reference in non-verbose mode. -/
theorem claim_c7_entry_checks_witness :
    (("WARN", "Entry " ++ toString 0 ++ " ("
        ++ entryName (Json.obj [("file", Json.str "x/index.html")]) ++ "): missing 'name'")
      ∈ (checkEntry fsC7 false
          (CheckResult.init "index.json validation" "data", 0)
          (Json.obj [("file", Json.str "x/index.html")])).1.details)
    ∧ (("FAIL", "Entry '" ++ entryName (Json.obj [("file", Json.str "zz/f")])
          ++ "': file not found: " ++ entryFileRef (Json.obj [("file", Json.str "zz/f")]))
        ∈ (checkEntry fsC7 false
            (CheckResult.init "index.json validation" "data", 0)
            (Json.obj [("file", Json.str "zz/f")])).1.details)
    ∧ (("FAIL", "Entry '" ++ entryName (Json.obj [("file", Json.str "x/index.html")])
          ++ "': file is empty: " ++ entryFileRef (Json.obj [("file", Json.str "x/index.html")]))
        ∈ (checkEntry fsC7 false
            (CheckResult.init "index.json validation" "data", 0)
            (Json.obj [("file", Json.str "x/index.html")])).1.details)
    ∧ ((("PASS", "Entry '" ++ entryName (Json.obj [("file", Json.str "y/index.html")])
          ++ "': " ++ entryFileRef (Json.obj [("file", Json.str "y/index.html")]) ++ " OK")
        ∈ (checkEntry fsC7 false
            (CheckResult.init "index.json validation" "data", 0)
            (Json.obj [("file", Json.str "y/index.html")])).1.details)
      ↔ false = true) := by
  refine ⟨?_, ?_, ?_, ?_⟩
  · exact (claim_c7_entry_checks fsC7 false
      (CheckResult.init "index.json validation" "data") 0
      (Json.obj [("file", Json.str "x/index.html")]) []).1 rfl rfl
  · exact ((claim_c7_entry_checks fsC7 false
      (CheckResult.init "index.json validation" "data") 0
      (Json.obj [("file", Json.str "zz/f")]) []).2.2.2.1 rfl (by decide) rfl).1
  · exact ((claim_c7_entry_checks fsC7 false
      (CheckResult.init "index.json validation" "data") 0
      (Json.obj [("file", Json.str "x/index.html")]) []).2.2.2.2.1 rfl (by decide)
        rfl rfl).1
  · exact (claim_c7_entry_checks fsC7 false
      (CheckResult.init "index.json validation" "data") 0
      (Json.obj [("file", Json.str "y/index.html")]) []).2.2.2.2.2 rfl (by decide) rfl
      (by decide) (by simp [CheckResult.init])

theorem splitSlash_ne_nil (l : List Char) : splitSlash l ≠ [] := by
  cases l with
  | nil => simp [splitSlash]
  | cons c r =>
    simp only [splitSlash]
    split
    · simp
    · split <;> simp

theorem splitSlash_cons_ne (c : Char) (r : List Char) (hc : c ≠ '/') :
    splitSlash (c :: r)
      = match splitSlash r with
        | [] => [[c]]
        | s :: ss => (c :: s) :: ss := by
  simp [splitSlash, hc]

theorem getLastD_mem {α : Type} (l : List α) (d : α) (h : l ≠ []) :
    l.getLastD d ∈ l := by
  induction l generalizing d with
  | nil => exact absurd rfl h
  | cons a as ih =>
    cases as with
    | nil => simp [List.getLastD]
    | cons b bs =>
      have hthis := ih a (by simp)
      simp only [List.getLastD_cons] at hthis ⊢
      exact List.mem_cons_of_mem a hthis

theorem dropLast_append_getLastD {α : Type} (l : List α) (d : α) (h : l ≠ []) :
    l.dropLast ++ [l.getLastD d] = l := by
  induction l generalizing d with
  | nil => exact absurd rfl h
  | cons a as ih =>
    cases as with
    | nil => simp [List.getLastD]
    | cons b bs =>
      have hthis := ih a (by simp)
      simp only [List.getLastD_cons] at hthis ⊢
      simp only [List.dropLast_cons₂, List.cons_append]
      rw [hthis]

theorem splitSlash_append (a b : List Char) :
    splitSlash (a ++ b)
      = (splitSlash a).dropLast
        ++ ((splitSlash a).getLastD [] ++ (splitSlash b).headD [])
            :: (splitSlash b).tail := by
  induction a with
  | nil =>
    obtain ⟨x, xs, hx⟩ := List.exists_cons_of_ne_nil (splitSlash_ne_nil b)
    simp [splitSlash, hx]
  | cons c r ih =>
    by_cases hc : c = '/'
    · subst hc
      have h1 : splitSlash ('/' :: (r ++ b)) = [] :: splitSlash (r ++ b) := by
        simp [splitSlash]
      have h2 : splitSlash ('/' :: r) = [] :: splitSlash r := by
        simp [splitSlash]
      obtain ⟨s, ss, hs⟩ := List.exists_cons_of_ne_nil (splitSlash_ne_nil r)
      rw [List.cons_append, h1, h2, ih, hs]
      simp [List.getLastD_cons]
    · rw [List.cons_append, splitSlash_cons_ne c _ hc, splitSlash_cons_ne c r hc, ih]
      obtain ⟨s, ss, hs⟩ := List.exists_cons_of_ne_nil (splitSlash_ne_nil r)
      rw [hs]
      cases ss with
      | nil => simp [List.getLastD_cons]
      | cons s2 ss2 => simp [List.getLastD_cons]

theorem mem_of_mem_splitSlash (l : List Char) :
    ∀ (chunk : List Char) (c : Char),
      chunk ∈ splitSlash l → c ∈ chunk → c ∈ l := by
  induction l with
  | nil =>
    intro chunk c hch hc
    simp [splitSlash] at hch
    subst hch
    simp at hc
  | cons a r ih =>
    intro chunk c hch hc
    by_cases ha : a = '/'
    · subst ha
      have h1 : splitSlash ('/' :: r) = [] :: splitSlash r := by simp [splitSlash]
      rw [h1] at hch
      rcases List.mem_cons.mp hch with rfl | hmem
      · simp at hc
      · exact List.mem_cons_of_mem _ (ih chunk c hmem hc)
    · rw [splitSlash_cons_ne a r ha] at hch
      obtain ⟨s, ss, hs⟩ := List.exists_cons_of_ne_nil (splitSlash_ne_nil r)
      rw [hs] at hch
      simp only at hch
      rcases List.mem_cons.mp hch with rfl | hmem
      · rcases List.mem_cons.mp hc with rfl | hcs
        · exact List.mem_cons_self _ _
        · have hsm : s ∈ splitSlash r := by rw [hs]; exact List.mem_cons_self _ _
          exact List.mem_cons_of_mem _ (ih s c hsm hcs)
      · have hm : chunk ∈ splitSlash r := by
          rw [hs]; exact List.mem_cons_of_mem _ hmem
        exact List.mem_cons_of_mem _ (ih chunk c hm hc)

theorem takeWhile_append_stop (p : Char → Bool) (l : List Char) (x : Char)
    (r : List Char) (hl : ∀ c ∈ l, p c = true) (hx : p x = false) :
    (l ++ x :: r).takeWhile p = l := by
  induction l with
  | nil => simp [List.takeWhile_cons, hx]
  | cons a as ih =>
    have ha := hl a (List.mem_cons_self a as)
    simp only [List.cons_append, List.takeWhile_cons, ha, if_true]
    rw [ih (fun c hc => hl c (List.mem_cons_of_mem a hc))]

theorem stripQF_clean_append (pre rest : QPath)
    (h : ∀ seg ∈ pre, seg.data.any qfStop = false) :
    stripQF (pre ++ rest) = pre ++ stripQF rest := by
  induction pre with
  | nil => simp
  | cons seg segs ih =>
    have hs := h seg (List.mem_cons_self seg segs)
    simp only [List.cons_append, stripQF, hs]
    simp only [Bool.false_eq_true, if_false]
    simp [List.append_eq, ih (fun s hs2 => h s (List.mem_cons_of_mem seg hs2))]

/-- The query/fragment strip on a clean prefix followed by a part that
contains a stop character: everything from the stop on is removed, and
the remaining cut part is kept subject to the same empty/dot filter that
path parsing applies. -/
theorem stripQF_dirty_tail (pre : QPath) (la : List Char) (stop : Char)
    (s : List Char) (R : QPath)
    (hpre : ∀ seg ∈ pre, seg.data.any qfStop = false)
    (hla : ∀ c ∈ la, qfStop c = false)
    (hstop : qfStop stop = true) :
    stripQF (pre ++ String.mk (la ++ stop :: s) :: R)
      = pre ++ [String.mk la].filter (fun seg => seg ≠ "" ∧ seg ≠ ".") := by
  rw [stripQF_clean_append pre _ hpre]
  congr 1
  have hany : (String.mk (la ++ stop :: s)).data.any qfStop = true := by
    show (la ++ stop :: s).any qfStop = true
    rw [List.any_append]
    simp [hstop]
  have hcut : (String.mk (la ++ stop :: s)).data.takeWhile (fun c => !qfStop c)
      = la := by
    show (la ++ stop :: s).takeWhile (fun c => !qfStop c) = la
    apply takeWhile_append_stop
    · intro c hcm
      simp [hla c hcm]
    · simp [hstop]
  simp only [stripQF, hany, if_true, hcut]
  by_cases hp : (String.mk la ≠ "" ∧ String.mk la ≠ ".")
  · rw [if_pos hp, List.filter_singleton, decide_eq_true hp]
    rfl
  · rw [if_neg hp, List.filter_singleton, decide_eq_false hp]
    rfl

/-- The query/fragment strip is the identity on a clean path of the shape
produced by path parsing. -/
theorem stripQF_clean_tail (pre : QPath) (la : List Char)
    (hpre : ∀ seg ∈ pre, seg.data.any qfStop = false)
    (hla : ∀ c ∈ la, qfStop c = false) :
    stripQF (pre ++ [String.mk la].filter (fun seg => seg ≠ "" ∧ seg ≠ "."))
      = pre ++ [String.mk la].filter (fun seg => seg ≠ "" ∧ seg ≠ ".") := by
  rw [stripQF_clean_append pre _ hpre]
  congr 1
  have hclean : (String.mk la).data.any qfStop = false := by
    show la.any qfStop = false
    rw [List.any_eq_false]
    intro c hcm
    simp [hla c hcm]
  by_cases hp : (String.mk la ≠ "" ∧ String.mk la ≠ ".")
  · rw [List.filter_singleton, decide_eq_true hp]
    simp only [cond_true]
    simp [stripQF, hclean]
  · rw [List.filter_singleton, decide_eq_false hp]
    simp only [cond_false]
    simp [stripQF]

/-- Appending a query (`?`) or fragment (`#`) suffix to a clean
non-root-relative reference does not change the resolved target: the
suffix is stripped before the existence check. -/
theorem linkTarget_strip (pageDir : QPath) (href suffix : String) (stop : Char)
    (hstop : qfStop stop = true)
    (hclean : ∀ c ∈ href.data, qfStop c = false)
    (hpd : ∀ seg ∈ pageDir, seg.data.any qfStop = false)
    (hrel : strStarts href "/" = false) :
    linkTarget pageDir (href ++ String.mk (stop :: suffix.data))
      = linkTarget pageDir href := by
  have hs7 : stop ≠ '/' := by
    intro h
    subst h
    simp [qfStop] at hstop
  have hrel2 : strStarts (href ++ String.mk (stop :: suffix.data)) "/" = false := by
    simp only [strStarts] at hrel ⊢
    rw [String.data_append]
    cases hd : href.data with
    | nil =>
      simp only [hd, List.nil_append]
      show leadsWith ['/'] (stop :: suffix.data) = false
      simp [leadsWith, Ne.symm hs7]
    | cons c cs =>
      rw [hd] at hrel
      simp only [hd, List.cons_append]
      show leadsWith ['/'] (c :: (cs ++ stop :: suffix.data)) = false
      have hc : leadsWith ['/'] (c :: cs) = false := hrel
      simp only [leadsWith] at hc ⊢
      simpa using hc
  simp only [linkTarget, hrel, hrel2, Bool.false_eq_true, if_false]
  have hA := splitSlash_ne_nil href.data
  obtain ⟨s, ss, hs⟩ := List.exists_cons_of_ne_nil (splitSlash_ne_nil suffix.data)
  have hBsplit : splitSlash (stop :: suffix.data) = (stop :: s) :: ss := by
    rw [splitSlash_cons_ne stop _ hs7, hs]
  have hABsplit : splitSlash (href.data ++ stop :: suffix.data)
      = (splitSlash href.data).dropLast
        ++ ((splitSlash href.data).getLastD [] ++ stop :: s) :: ss := by
    rw [splitSlash_append, hBsplit]
    rfl
  have hdata : (href ++ String.mk (stop :: suffix.data)).data
      = href.data ++ stop :: suffix.data := String.data_append _ _
  have hlaclean : ∀ c ∈ (splitSlash href.data).getLastD [], qfStop c = false := by
    intro c hcm
    exact hclean c (mem_of_mem_splitSlash href.data _ c (getLastD_mem _ _ hA) hcm)
  have hPclean : ∀ seg ∈ (((splitSlash href.data).dropLast.map String.mk).filter
      (fun seg => seg ≠ "" ∧ seg ≠ ".")), seg.data.any qfStop = false := by
    intro seg hseg
    obtain ⟨chunk, hchunk, rfl⟩ := List.mem_map.mp (List.mem_of_mem_filter hseg)
    rw [List.any_eq_false]
    intro c hcm
    simp only [Bool.not_eq_true]
    exact hclean c (mem_of_mem_splitSlash href.data chunk c
      (List.mem_of_mem_dropLast hchunk) hcm)
  have hpre : ∀ seg ∈ pageDir ++ (((splitSlash href.data).dropLast.map String.mk).filter
      (fun seg => seg ≠ "" ∧ seg ≠ ".")), seg.data.any qfStop = false := by
    intro seg hseg
    rcases List.mem_append.mp hseg with h1 | h1
    · exact hpd seg h1
    · exact hPclean seg h1
  have hPOS1 : pathOfString (href ++ String.mk (stop :: suffix.data))
      = (((splitSlash href.data).dropLast.map String.mk).filter
            (fun seg => seg ≠ "" ∧ seg ≠ "."))
        ++ String.mk ((splitSlash href.data).getLastD [] ++ stop :: s)
            :: ((ss.map String.mk).filter (fun seg => seg ≠ "" ∧ seg ≠ ".")) := by
    have hdne : (String.mk ((splitSlash href.data).getLastD [] ++ stop :: s) ≠ ""
        ∧ String.mk ((splitSlash href.data).getLastD [] ++ stop :: s) ≠ ".") := by
      constructor
      · intro h
        have hd := congrArg String.data h
        rw [show ("" : String).data = [] from rfl] at hd
        simp at hd
      · intro h
        have hd := congrArg String.data h
        rw [show ("." : String).data = ['.'] from rfl] at hd
        have hlen := congrArg List.length hd
        simp only [String.data, List.length_append, List.length_cons,
          List.length_singleton] at hlen
        have hla0 : (splitSlash href.data).getLastD [] = [] := by
          cases h0 : (splitSlash href.data).getLastD [] with
          | nil => rfl
          | cons x xs =>
            rw [h0] at hlen
            simp at hlen
            omega
        rw [hla0] at hd
        simp only [String.data, List.nil_append, List.cons.injEq] at hd
        have hdot : stop = '.' := hd.1
        rw [hdot] at hstop
        simp [qfStop] at hstop
    simp only [pathOfString, hdata, hABsplit, List.map_append, List.filter_append,
      List.map_cons]
    congr 1
    rw [List.filter_cons_of_pos]
    exact decide_eq_true hdne
  have hSAdecomp : splitSlash href.data
      = (splitSlash href.data).dropLast ++ [(splitSlash href.data).getLastD []] :=
    (dropLast_append_getLastD _ _ hA).symm
  have hPOS2 : pathOfString href
      = (((splitSlash href.data).dropLast.map String.mk).filter
            (fun seg => seg ≠ "" ∧ seg ≠ "."))
        ++ [String.mk ((splitSlash href.data).getLastD [])].filter
            (fun seg => seg ≠ "" ∧ seg ≠ ".") := by
    conv_lhs => rw [pathOfString, hSAdecomp]
    simp only [List.map_append, List.filter_append, List.map_cons, List.map_nil]
  rw [hPOS1, hPOS2, ← List.append_assoc, ← List.append_assoc,
    stripQF_dirty_tail _ _ _ _ _ hpre hlaclean hstop,
    stripQF_clean_tail _ _ hpre hlaclean]

/-- Claim C8: a root-relative href resolves against the site root
(independently of the page), any other against the page's directory;
query and fragment suffixes are stripped before the existence check; the
check accepts an existing file and a directory holding a default index
file; and a missing target yields FAIL "broken internal link". -/
theorem claim_c8_internal_links (env : Env) (fs : FS) (pageDir pageDir' : QPath)
    (verbose : Bool) (result : CheckResult) (checked broken : Nat)
    (href suffix : String) :
    (strStarts href "/" = true →
      linkTarget pageDir href = linkTarget pageDir' href
      ∧ linkTarget pageDir href
          = stripQF (PUBLIC_DIR ++ pathOfString (lstripSlashes href)))
    ∧ (strStarts href "/" = false →
      linkTarget pageDir href = stripQF (pageDir ++ pathOfString href))
    ∧ ((∀ c ∈ href.data, qfStop c = false) →
        (∀ seg ∈ pageDir, seg.data.any qfStop = false) →
        strStarts href "/" = false →
        linkTarget pageDir (href ++ String.mk ('?' :: suffix.data))
            = linkTarget pageDir href
        ∧ linkTarget pageDir (href ++ String.mk ('#' :: suffix.data))
            = linkTarget pageDir href)
    ∧ (strStarts3 href "http://" "https://" "//" = false →
        fs.existsPath (linkTarget pageDir href) = true →
        linkStep env fs pageDir verbose (result, checked, broken) href
          = ((if verbose then result.ok ("Link OK: " ++ href) else result),
             checked + 1, broken))
    ∧ (strStarts3 href "http://" "https://" "//" = false →
        fs.isDir (linkTarget pageDir href) = true →
        fs.existsPath (linkTarget pageDir href ++ ["index.html"]) = true →
        linkStep env fs pageDir verbose (result, checked, broken) href
          = ((if verbose then result.ok ("Link OK: " ++ href) else result),
             checked + 1, broken))
    ∧ (strStarts3 href "http://" "https://" "//" = false →
        fs.existsPath (linkTarget pageDir href) = false →
        linkStep env fs pageDir verbose (result, checked, broken) href
          = (result.fail ("Broken internal link: " ++ href ++ " (resolved to "
              ++ pathStr (linkTarget pageDir href) ++ ")"), checked + 1, broken + 1)) := by
  refine ⟨?_, ?_, ?_, ?_, ?_, ?_⟩
  · intro habs
    constructor <;> simp [linkTarget, habs]
  · intro habs
    simp [linkTarget, habs]
  · intro hclean hpd hrel
    exact ⟨linkTarget_strip pageDir href suffix '?' rfl hclean hpd hrel,
           linkTarget_strip pageDir href suffix '#' rfl hclean hpd hrel⟩
  · intro habs hex
    simp [linkStep, habs, hex]
  · intro habs hdir hidx
    have hex := FS.existsPath_of_isDir fs _ hdir
    simp [linkStep, habs, hex]
  · intro habs hex
    have hdir : fs.isDir (linkTarget pageDir href) = false := by
      by_contra h
      have := FS.existsPath_of_isDir fs (linkTarget pageDir href)
        (by revert h; cases fs.isDir (linkTarget pageDir href) <;> simp)
      rw [this] at hex
      cases hex
    simp [linkStep, habs, hex, hdir]

/-- Witness for C8 at concrete inputs: a root-relative and a page-relative
href, a query suffix, an existing target, a directory target with an
index file, and a missing target. -/
theorem claim_c8_internal_links_witness :
    (linkTarget (PROJECTS_DIR ++ ["test-1"]) "/style.css"
      = linkTarget ["elsewhere"] "/style.css")
    ∧ (linkTarget (PROJECTS_DIR ++ ["test-1"]) ("a/b" ++ String.mk ('?' :: "v=1".data))
        = linkTarget (PROJECTS_DIR ++ ["test-1"]) "a/b")
    ∧ linkStep envOK ⟨[(PUBLIC_DIR ++ ["style.css"], "x")], []⟩
        (PROJECTS_DIR ++ ["test-1"]) false (CheckResult.init "w", 0, 0) "/style.css"
      = ((if false then (CheckResult.init "w").ok ("Link OK: " ++ "/style.css")
          else CheckResult.init "w"), 0 + 1, 0)
    ∧ linkStep envOK fsEmpty (PROJECTS_DIR ++ ["test-1"]) false
        (CheckResult.init "w", 0, 0) "missing.html"
      = ((CheckResult.init "w").fail ("Broken internal link: " ++ "missing.html"
          ++ " (resolved to "
          ++ pathStr (linkTarget (PROJECTS_DIR ++ ["test-1"]) "missing.html") ++ ")"),
         0 + 1, 0 + 1) := by
  refine ⟨?_, ?_, ?_, ?_⟩
  · exact ((claim_c8_internal_links envOK fsEmpty (PROJECTS_DIR ++ ["test-1"])
      ["elsewhere"] false (CheckResult.init "w") 0 0 "/style.css" "").1 rfl).1
  · exact ((claim_c8_internal_links envOK fsEmpty (PROJECTS_DIR ++ ["test-1"])
      [] false (CheckResult.init "w") 0 0 "a/b" "v=1").2.2.1 (by decide) (by decide)
      rfl).1
  · exact (claim_c8_internal_links envOK ⟨[(PUBLIC_DIR ++ ["style.css"], "x")], []⟩
      (PROJECTS_DIR ++ ["test-1"]) [] false (CheckResult.init "w") 0 0
      "/style.css" "").2.2.2.1 rfl rfl
  · exact (claim_c8_internal_links envOK fsEmpty (PROJECTS_DIR ++ ["test-1"])
      [] false (CheckResult.init "w") 0 0 "missing.html" "").2.2.2.2.2 rfl rfl

/-- The per-page check never touches the report's result list (only the
fix counter). -/
theorem checkPage_results (env : Env) (verbose fix : Bool) (report : QAReport)
    (fs : FS) (n : String) :
    (checkPage env verbose fix report fs n).2.1.results = report.results := by
  simp only [checkPage, fix_create_placeholder]
  repeat' split
  all_goals simp

/-- Folding the page loop adds exactly one result per directory. -/
theorem checkPage_fold_length (env : Env) (verbose fix : Bool) :
    ∀ (l : List String) (acc : QAReport × FS),
      (l.foldl (fun acc n =>
        let out := checkPage env verbose fix acc.1 acc.2 n
        (out.2.1.add out.1, out.2.2)) acc).1.results.length
      = acc.1.results.length + l.length := by
  intro l
  induction l with
  | nil => intro acc; simp
  | cons n ns ih =>
    intro acc
    rw [List.foldl_cons, ih]
    simp only [QAReport.add, checkPage_results, List.length_append,
      List.length_cons, List.length_nil, List.length_singleton]
    omega

/-- Claim C5 counterexample: when parsing the page markup raises, the
per-page check records WARN and stops — the HTTP reachability, link and
asset sub-checks for that page are skipped (here the probe answers 500,
which would force a FAIL had the HTTP sub-check run), contradicting the
claim that they are still performed. -/
theorem claim_c5_counterexample :
    (checkPage ⟨fun _ => (HTMLFacts.start, some "boom"), fun _ => 500⟩ false false
      QAReport.empty
      ⟨[(PROJECTS_DIR ++ ["test-1", "index.html"], "x")],
       [["public"], PUBLIC_DIR, PROJECTS_DIR, PROJECTS_DIR ++ ["test-1"]]⟩
      "test-1").1.status = "WARN"
    ∧ (checkPage ⟨fun _ => (HTMLFacts.start, some "boom"), fun _ => 500⟩ false false
      QAReport.empty
      ⟨[(PROJECTS_DIR ++ ["test-1", "index.html"], "x")],
       [["public"], PUBLIC_DIR, PROJECTS_DIR, PROJECTS_DIR ++ ["test-1"]]⟩
      "test-1").1.details
      = [("PASS", "File exists (1 bytes)"), ("WARN", "HTML parse error: boom")] := by
  constructor <;> rfl

/-- Claim C5 (amended): in the per-page check a markup parse failure
records WARN (never FAIL) and skips the remaining sub-checks for that
page, while every directory still contributes exactly one CheckResult;
in the main-index check processing continues with the extracted facts
and the HTTP sub-check still runs. -/
theorem claim_c5_parse_failure (env : Env) (fs : FS) (report : QAReport)
    (dirName : String) (verbose fix : Bool) (facts : HTMLFacts) (err : String) :
    (fs.existsPath (PROJECTS_DIR ++ [dirName, "index.html"]) = true →
     (pyStrip ((fs.readFile (PROJECTS_DIR ++ [dirName, "index.html"])).getD "")).length ≠ 0 →
     env.feed ((fs.readFile (PROJECTS_DIR ++ [dirName, "index.html"])).getD "")
        = (facts, some err) →
     checkPage env verbose fix report fs dirName
       = (((CheckResult.init ("Page: " ++ dirName) "page").ok
            ("File exists ("
              ++ toString ((fs.readFile (PROJECTS_DIR ++ [dirName, "index.html"])).getD "").length
              ++ " bytes)")).warn ("HTML parse error: " ++ err), report, fs)
     ∧ (checkPage env verbose fix report fs dirName).1.status = "WARN")
    ∧ (fs.existsPath MAIN_INDEX = true →
       (pyStrip ((fs.readFile MAIN_INDEX).getD "")).length ≠ 0 →
       env.feed ((fs.readFile MAIN_INDEX).getD "") = (facts, some err) →
       (env.probe BASE_URL = 200 →
         ("PASS", "HTTP 200 from " ++ BASE_URL)
           ∈ (check_main_index env fs verbose).details)
       ∧ (env.probe BASE_URL ≠ 200 →
         ("FAIL", "HTTP " ++ toString (env.probe BASE_URL) ++ " from " ++ BASE_URL)
           ∈ (check_main_index env fs verbose).details
         ∧ (check_main_index env fs verbose).status = "FAIL"))
    ∧ (fs.existsPath PROJECTS_DIR = true →
       (check_project_pages env verbose fix report fs).1.results.length
         = report.results.length
           + (naturalSort ((fs.childNames PROJECTS_DIR).filter
               (fun n => fs.isDir (PROJECTS_DIR ++ [n])))).length) := by
  refine ⟨?_, ?_, ?_⟩
  · intro hex hlen hfeed
    have heq : checkPage env verbose fix report fs dirName
        = (((CheckResult.init ("Page: " ++ dirName) "page").ok
            ("File exists ("
              ++ toString ((fs.readFile (PROJECTS_DIR ++ [dirName, "index.html"])).getD "").length
              ++ " bytes)")).warn ("HTML parse error: " ++ err), report, fs) := by
      simp only [checkPage, hex, hlen, hfeed]
      simp
    refine ⟨heq, ?_⟩
    rw [heq]
    rfl
  · intro hex hlen hfeed
    constructor
    · intro hcode
      simp only [check_main_index, hex, hlen, hfeed]
      simp only [hcode]
      simp [CheckResult.ok, CheckResult.warn]
    · intro hcode
      have hbeq : (env.probe BASE_URL == 200) = false := by
        simpa using hcode
      constructor
      · simp only [check_main_index, hex, hlen, hfeed, hbeq]
        simp [CheckResult.fail, CheckResult.warn]
      · simp only [check_main_index, hex, hlen, hfeed, hbeq]
        simp [CheckResult.fail]
  · intro hex
    simp only [check_project_pages, hex]
    simp only [not_true, Bool.true_eq_false, if_false, ite_false]
    rw [checkPage_fold_length]

/-- A one-page filesystem for the C5 witness. -/
def fsC5 : FS :=
  ⟨[(PROJECTS_DIR ++ ["test-1", "index.html"], "x")],
   [["public"], PUBLIC_DIR, PROJECTS_DIR, PROJECTS_DIR ++ ["test-1"]]⟩

/-- Witness for C5 (amended) at a concrete raising parser. -/
theorem claim_c5_parse_failure_witness :
    checkPage ⟨fun _ => (HTMLFacts.start, some "e"), fun _ => 200⟩ false false
      QAReport.empty fsC5 "test-1"
    = (((CheckResult.init ("Page: " ++ "test-1") "page").ok
        ("File exists ("
          ++ toString ((fsC5.readFile (PROJECTS_DIR ++ ["test-1", "index.html"])).getD "").length
          ++ " bytes)")).warn ("HTML parse error: " ++ "e"),
       QAReport.empty, fsC5) :=
  ((claim_c5_parse_failure ⟨fun _ => (HTMLFacts.start, some "e"), fun _ => 200⟩
    fsC5 QAReport.empty "test-1" false false HTMLFacts.start "e").1
    rfl (by decide) rfl).1

/-- The invariant of C10: a result's status is one of the four legal
values. -/
def statusOk (r : CheckResult) : Prop :=
  r.status = "PASS" ∨ r.status = "FAIL" ∨ r.status = "WARN" ∨ r.status = "FIXED"

theorem statusOk_init (name category : String) :
    statusOk (CheckResult.init name category) :=
  Or.inl rfl

theorem statusOk_fail (r : CheckResult) (m : String) : statusOk (r.fail m) :=
  Or.inr (Or.inl rfl)

theorem statusOk_fixed (r : CheckResult) (m : String) : statusOk (r.fixed m) :=
  Or.inr (Or.inr (Or.inr rfl))

theorem statusOk_warn (r : CheckResult) (m : String) (h : statusOk r) :
    statusOk (r.warn m) := by
  unfold statusOk CheckResult.warn at *
  by_cases hp : r.status = "PASS" <;> simp [hp] <;> tauto

theorem statusOk_ok (r : CheckResult) (m : String) (h : statusOk r) :
    statusOk (r.ok m) := h

theorem statusOk_info (r : CheckResult) (m : String) (h : statusOk r) :
    statusOk (r.info m) := h

theorem statusOk_foldl {α β : Type} (step : β → α → β) (proj : β → CheckResult)
    (hstep : ∀ b a, statusOk (proj b) → statusOk (proj (step b a))) :
    ∀ (l : List α) (b : β), statusOk (proj b) → statusOk (proj (l.foldl step b)) := by
  intro l
  induction l with
  | nil => intro b hb; exact hb
  | cons a as ih => intro b hb; exact ih _ (hstep b a hb)

theorem statusOk_structure (r : CheckResult) (v : HTMLFacts) (verbose : Bool)
    (h : statusOk r) : statusOk (check_html_structure r v verbose) := by
  unfold check_html_structure
  refine statusOk_foldl _ id ?_ _ r h
  intro b a hb
  simp only [id] at *
  split
  · split
    · exact statusOk_ok _ _ hb
    · exact hb
  · exact statusOk_warn _ _ hb

theorem statusOk_linkStep (env : Env) (fs : FS) (pageDir : QPath) (verbose : Bool)
    (acc : CheckResult × Nat × Nat) (href : String) (h : statusOk acc.1) :
    statusOk (linkStep env fs pageDir verbose acc href).1 := by
  unfold linkStep
  dsimp only
  repeat' split
  all_goals
    first
    | exact h
    | exact statusOk_ok _ _ h
    | exact statusOk_fail _ _

theorem statusOk_links (env : Env) (fs : FS) (r : CheckResult) (v : HTMLFacts)
    (pageDir : QPath) (verbose : Bool) (h : statusOk r) :
    statusOk (check_internal_links env fs r v pageDir verbose) := by
  unfold check_internal_links
  dsimp only
  have hfold : statusOk (List.foldl (linkStep env fs pageDir verbose) (r, 0, 0) v.links).1 := by
    have hf := statusOk_foldl (linkStep env fs pageDir verbose) (fun b => b.1)
      (fun b a hb => statusOk_linkStep env fs pageDir verbose b a hb) v.links
      (r, 0, 0) h
    simpa using hf
  repeat' split
  all_goals
    first
    | exact h
    | exact statusOk_info _ _ h
    | exact statusOk_ok _ _ hfold
    | exact hfold

theorem statusOk_assetStep (env : Env) (fs : FS) (pageDir : QPath) (verbose : Bool)
    (acc : CheckResult × Nat × Nat) (ar : String × String) (h : statusOk acc.1) :
    statusOk (assetStep env fs pageDir verbose acc ar).1 := by
  unfold assetStep
  dsimp only
  repeat' split
  all_goals
    first
    | exact h
    | exact statusOk_ok _ _ h
    | exact statusOk_warn _ _ h
    | exact statusOk_fail _ _

theorem statusOk_assets (env : Env) (fs : FS) (r : CheckResult) (v : HTMLFacts)
    (pageDir : QPath) (verbose : Bool) (h : statusOk r) :
    statusOk (check_assets env fs r v pageDir verbose) := by
  unfold check_assets
  dsimp only
  have hfold : statusOk (List.foldl (assetStep env fs pageDir verbose) (r, 0, 0) v.asset_refs).1 := by
    have hf := statusOk_foldl (assetStep env fs pageDir verbose) (fun b => b.1)
      (fun b a hb => statusOk_assetStep env fs pageDir verbose b a hb) v.asset_refs
      (r, 0, 0) h
    simpa using hf
  repeat' split
  all_goals
    first
    | exact h
    | exact statusOk_info _ _ h
    | exact statusOk_ok _ _ hfold
    | exact hfold

theorem statusOk_checkEntry (fs : FS) (verbose : Bool) (acc : CheckResult × Nat)
    (entry : Json) (h : statusOk acc.1) :
    statusOk (checkEntry fs verbose acc entry).1 := by
  unfold checkEntry
  dsimp only
  repeat' split
  all_goals
    repeat
      first
      | assumption
      | exact statusOk_fail _ _
      | refine statusOk_ok _ _ ?_
      | refine statusOk_warn _ _ ?_

theorem statusOk_crossStep (fix : Bool) (dirsIndexed : List String)
    (acc : CheckResult × List Json × QAReport × FS) (dname : String)
    (h : statusOk acc.1) : statusOk (crossStep fix dirsIndexed acc dname).1 := by
  unfold crossStep fix_add_index_entry
  dsimp only
  repeat' split
  all_goals
    first
    | exact h
    | exact statusOk_fixed _ _
    | exact statusOk_warn _ _ h

theorem statusOk_check_main_index (env : Env) (fs : FS) (verbose : Bool) :
    statusOk (check_main_index env fs verbose) := by
  unfold check_main_index
  dsimp only
  repeat' split
  all_goals
    repeat
      first
      | exact statusOk_init _ _
      | exact statusOk_fail _ _
      | refine statusOk_ok _ _ ?_
      | refine statusOk_warn _ _ ?_
      | refine statusOk_structure _ _ _ ?_

theorem statusOk_checkPage (env : Env) (verbose fix : Bool) (report : QAReport)
    (fs : FS) (n : String) : statusOk (checkPage env verbose fix report fs n).1 := by
  unfold checkPage fix_create_placeholder
  dsimp only
  repeat' split
  all_goals
    repeat
      first
      | exact statusOk_init _ _
      | exact statusOk_fail _ _
      | exact statusOk_fixed _ _
      | refine statusOk_ok _ _ ?_
      | refine statusOk_warn _ _ ?_
      | refine statusOk_assets _ _ _ _ _ _ ?_
      | refine statusOk_links _ _ _ _ _ _ ?_
      | refine statusOk_structure _ _ _ ?_

theorem crossStep_fold_results (fix : Bool) (idx : List String) :
    ∀ (l : List String) (acc : CheckResult × List Json × QAReport × FS),
      (l.foldl (crossStep fix idx) acc).2.2.1.results = acc.2.2.1.results := by
  intro l
  induction l with
  | nil => intro acc; rfl
  | cons n ns ih =>
    intro acc
    rw [List.foldl_cons, ih]
    unfold crossStep fix_add_index_entry
    dsimp only
    repeat' split
    all_goals simp

theorem statusOk_checkEntry_fold (fs : FS) (verbose : Bool) (data : List Json)
    (acc : CheckResult × Nat) (h : statusOk acc.1) :
    statusOk ((data.foldl (checkEntry fs verbose) acc).1) := by
  have hf := statusOk_foldl (checkEntry fs verbose) (fun b => b.1)
    (fun b a hb => statusOk_checkEntry fs verbose b a hb) data acc h
  simpa using hf

theorem statusOk_crossStep_fold (fix : Bool) (idx names : List String)
    (acc : CheckResult × List Json × QAReport × FS) (h : statusOk acc.1) :
    statusOk ((names.foldl (crossStep fix idx) acc).1) := by
  have hf := statusOk_foldl (crossStep fix idx) (fun b => b.1)
    (fun b a hb => statusOk_crossStep fix idx b a hb) names acc h
  simpa using hf

theorem statusOk_check_index_json (verbose fix : Bool) (report : QAReport) (fs : FS) :
    ∀ r ∈ (check_index_json verbose fix report fs).1.results,
      r ∈ report.results ∨ statusOk r := by
  unfold check_index_json fix_create_index_json fix_broken_json
  dsimp only
  repeat' split
  all_goals
    intro r hr
    simp only [QAReport.add, crossStep_fold_results, List.mem_append,
      List.mem_singleton] at hr
    rcases hr with hr | rfl
    · exact Or.inl hr
    · right
      first
      | exact statusOk_fail _ _
      | exact statusOk_fixed _ _
      | exact statusOk_crossStep_fold _ _ _ _
          (statusOk_checkEntry_fold _ _ _ _
            (statusOk_ok _ _ (statusOk_init _ _)))
      | exact statusOk_checkEntry_fold _ _ _ _
          (statusOk_ok _ _ (statusOk_init _ _))

theorem statusOk_check_project_pages (env : Env) (verbose fix : Bool) :
    ∀ (l : List String) (acc : QAReport × FS)
      (r : CheckResult),
      r ∈ (l.foldl (fun acc n =>
        let out := checkPage env verbose fix acc.1 acc.2 n
        (out.2.1.add out.1, out.2.2)) acc).1.results →
      r ∈ acc.1.results ∨ statusOk r := by
  intro l
  induction l with
  | nil => intro acc r hr; exact Or.inl hr
  | cons n ns ih =>
    intro acc r hr
    rcases ih _ r hr with hmem | hok
    · simp only [QAReport.add, checkPage_results, List.mem_append,
        List.mem_singleton] at hmem
      rcases hmem with hmem | rfl
      · exact Or.inl hmem
      · exact Or.inr (statusOk_checkPage env verbose fix acc.1 acc.2 n)
    · exact Or.inr hok

theorem count_partition (l : List CheckResult) (h : ∀ r ∈ l, statusOk r) :
    l.length = (l.filter (fun r => r.status = "PASS")).length
      + (l.filter (fun r => r.status = "FAIL")).length
      + (l.filter (fun r => r.status = "WARN")).length
      + (l.filter (fun r => r.status = "FIXED")).length := by
  induction l with
  | nil => simp
  | cons r rs ih =>
    have hr := h r (List.mem_cons_self r rs)
    have hrs := ih (fun x hx => h x (List.mem_cons_of_mem _ hx))
    rcases hr with h1 | h1 | h1 | h1 <;>
      simp [List.filter_cons, h1, hrs] <;> omega

/-- Claim C10: every result any run appends has one of the four statuses
PASS, FAIL, WARN, FIXED, so the report's summary counts partition its
results: total = passed + failed + warnings + fixed. -/
theorem claim_c10_status_partition (env : Env) (fix verbose : Bool) (fs : FS) :
    (∀ r ∈ (runQA env fix verbose fs).1.results,
      r.status = "PASS" ∨ r.status = "FAIL" ∨ r.status = "WARN"
        ∨ r.status = "FIXED")
    ∧ (runQA env fix verbose fs).1.total
        = (runQA env fix verbose fs).1.passed
          + (runQA env fix verbose fs).1.failed
          + (runQA env fix verbose fs).1.warnings
          + (runQA env fix verbose fs).1.fixedCount := by
  have hall : ∀ r ∈ (runQA env fix verbose fs).1.results, statusOk r := by
    intro r hr
    unfold runQA at hr
    have hidx : ∀ x ∈ (check_index_json verbose fix
        ((QAReport.empty).add (check_main_index env fs verbose)) fs).1.results,
        statusOk x := by
      intro x hx
      rcases statusOk_check_index_json verbose fix _ fs x hx with hmem | hok
      · simp only [QAReport.empty, QAReport.add, List.nil_append,
          List.mem_singleton] at hmem
        subst hmem
        exact statusOk_check_main_index env fs verbose
      · exact hok
    unfold check_project_pages at hr
    dsimp only at hr
    split at hr
    · simp only [QAReport.add, List.mem_append, List.mem_singleton] at hr
      rcases hr with hr | rfl
      · exact hidx r hr
      · exact statusOk_fail _ _
    · rcases statusOk_check_project_pages env verbose fix _ _ r hr with hmem | hok
      · exact hidx r hmem
      · exact hok
  refine ⟨hall, ?_⟩
  have hp := count_partition (runQA env fix verbose fs).1.results hall
  simpa [QAReport.total, QAReport.passed, QAReport.failed, QAReport.warnings,
    QAReport.fixedCount] using hp

/-- Witness for C10: on an empty filesystem the main-index result (a
member of the run's results) has a legal status. -/
theorem claim_c10_status_partition_witness :
    (check_main_index envOK fsEmpty false).status = "PASS"
      ∨ (check_main_index envOK fsEmpty false).status = "FAIL"
      ∨ (check_main_index envOK fsEmpty false).status = "WARN"
      ∨ (check_main_index envOK fsEmpty false).status = "FIXED" :=
  (claim_c10_status_partition envOK false false fsEmpty).1
    (check_main_index envOK fsEmpty false) (by decide)

/-! ## A tolerant tag scanner

`HTMLParser.feed` is modelled as a character-level state machine emitting
the callback events of `HEv`; it covers the HTML shapes the generated
pages use (tags with double/single-quoted or unquoted attributes,
declarations, end tags) and treats everything else as text, as the
tolerant stdlib parser does. -/

/-- A character usable in a tag or attribute name. -/
def isNameChar (c : Char) : Bool :=
  c.isAlphanum ∨ c = '-' ∨ c = '_' ∨ c = ':'

/-- Scanner state. -/
inductive TState where
  | data : TState
  | tagOpen : TState
  | markup : TState
  | closeTag : List Char → Bool → TState
  | tagName : List Char → TState
  | beforeAttr : List Char → List (String × String) → TState
  | attrName : List Char → List (String × String) → List Char → TState
  | afterAttrName : List Char → List (String × String) → List Char → TState
  | beforeValue : List Char → List (String × String) → List Char → TState
  | valueDq : List Char → List (String × String) → List Char → List Char → TState
  | valueSq : List Char → List (String × String) → List Char → List Char → TState
  | valueUnq : List Char → List (String × String) → List Char → List Char → TState
deriving Repr, DecidableEq

/-- One scanner transition: the events emitted and the next state. -/
def tstep : TState → Char → List HEv × TState
  | TState.data, c =>
    if c = '<' then ([], TState.tagOpen) else ([HEv.text c], TState.data)
  | TState.tagOpen, c =>
    if c = '!' then ([], TState.markup)
    else if c = '/' then ([], TState.closeTag [] false)
    else if c.isAlpha then ([], TState.tagName [c])
    else if c = '<' then ([HEv.text '<'], TState.tagOpen)
    else ([HEv.text '<', HEv.text c], TState.data)
  | TState.markup, c =>
    if c = '>' then ([], TState.data) else ([], TState.markup)
  | TState.closeTag acc done, c =>
    if c = '>' then ([HEv.close (String.mk acc)], TState.data)
    else if isNameChar c ∧ ¬ done then ([], TState.closeTag (acc ++ [c]) false)
    else ([], TState.closeTag acc true)
  | TState.tagName name, c =>
    if c = '>' then ([HEv.start (String.mk name) []], TState.data)
    else if isNameChar c then ([], TState.tagName (name ++ [c]))
    else ([], TState.beforeAttr name [])
  | TState.beforeAttr name attrs, c =>
    if c = '>' then ([HEv.start (String.mk name) attrs], TState.data)
    else if pySpace c ∨ c = '/' then ([], TState.beforeAttr name attrs)
    else ([], TState.attrName name attrs [c])
  | TState.attrName name attrs an, c =>
    if c = '=' then ([], TState.beforeValue name attrs an)
    else if c = '>' then
      ([HEv.start (String.mk name) (attrs ++ [(pyLower (String.mk an), "")])],
       TState.data)
    else if pySpace c ∨ c = '/' then ([], TState.afterAttrName name attrs an)
    else ([], TState.attrName name attrs (an ++ [c]))
  | TState.afterAttrName name attrs an, c =>
    if c = '=' then ([], TState.beforeValue name attrs an)
    else if c = '>' then
      ([HEv.start (String.mk name) (attrs ++ [(pyLower (String.mk an), "")])],
       TState.data)
    else if pySpace c ∨ c = '/' then ([], TState.afterAttrName name attrs an)
    else ([], TState.attrName name (attrs ++ [(pyLower (String.mk an), "")]) [c])
  | TState.beforeValue name attrs an, c =>
    if c = '"' then ([], TState.valueDq name attrs an [])
    else if c = '\'' then ([], TState.valueSq name attrs an [])
    else if c = '>' then
      ([HEv.start (String.mk name) (attrs ++ [(pyLower (String.mk an), "")])],
       TState.data)
    else if pySpace c then ([], TState.beforeValue name attrs an)
    else ([], TState.valueUnq name attrs an [c])
  | TState.valueDq name attrs an av, c =>
    if c = '"' then
      ([], TState.beforeAttr name (attrs ++ [(pyLower (String.mk an), String.mk av)]))
    else ([], TState.valueDq name attrs an (av ++ [c]))
  | TState.valueSq name attrs an av, c =>
    if c = '\'' then
      ([], TState.beforeAttr name (attrs ++ [(pyLower (String.mk an), String.mk av)]))
    else ([], TState.valueSq name attrs an (av ++ [c]))
  | TState.valueUnq name attrs an av, c =>
    if c = '>' then
      ([HEv.start (String.mk name) (attrs ++ [(pyLower (String.mk an), String.mk av)])],
       TState.data)
    else if pySpace c then
      ([], TState.beforeAttr name (attrs ++ [(pyLower (String.mk an), String.mk av)]))
    else ([], TState.valueUnq name attrs an (av ++ [c]))

/-- The events emitted scanning a text from a state. -/
def scanHTML : List Char → TState → List HEv
  | [], _ => []
  | c :: cs, st => (tstep st c).1 ++ scanHTML cs (tstep st c).2

/-- The state reached scanning a text from a state. -/
def scanState : List Char → TState → TState
  | [], st => st
  | c :: cs, st => scanState cs (tstep st c).2

/-- The model of `HTMLStructureValidator(); v.feed(s)`: the doctype regex
scan of `feed`, then the callback events folded into the fact record. -/
def feedHTML (s : String) : HTMLFacts :=
  (scanHTML s.data TState.data).foldl hstep
    { HTMLFacts.start with has_doctype := searchDoctype s.data }

/-- Forget the accumulated title text; every other fact is independent of
it. -/
def core (f : HTMLFacts) : HTMLFacts :=
  { f with title_text := "" }

theorem core_hstep (st : HTMLFacts) (ev : HEv) :
    core (hstep st ev) = core (hstep (core st) ev) := by
  cases st
  cases ev with
  | start t attrs =>
    simp only [hstep, handle_starttag, core]
    simp only [apply_ite HTMLFacts.has_doctype, apply_ite HTMLFacts.has_html,
      apply_ite HTMLFacts.has_head, apply_ite HTMLFacts.has_body,
      apply_ite HTMLFacts.has_title, apply_ite HTMLFacts.links,
      apply_ite HTMLFacts.asset_refs, apply_ite HTMLFacts.in_title, ite_self]
  | close t =>
    simp only [hstep, handle_endtag, core]
    simp only [apply_ite HTMLFacts.has_doctype, apply_ite HTMLFacts.has_html,
      apply_ite HTMLFacts.has_head, apply_ite HTMLFacts.has_body,
      apply_ite HTMLFacts.has_title, apply_ite HTMLFacts.links,
      apply_ite HTMLFacts.asset_refs, apply_ite HTMLFacts.in_title, ite_self]
  | text c =>
    simp only [hstep, handle_data_char, core]
    simp only [apply_ite HTMLFacts.has_doctype, apply_ite HTMLFacts.has_html,
      apply_ite HTMLFacts.has_head, apply_ite HTMLFacts.has_body,
      apply_ite HTMLFacts.has_title, apply_ite HTMLFacts.links,
      apply_ite HTMLFacts.asset_refs, apply_ite HTMLFacts.in_title, ite_self]

theorem core_foldl (l : List HEv) : ∀ st : HTMLFacts,
    core (l.foldl hstep st) = core (l.foldl hstep (core st)) := by
  induction l with
  | nil =>
    intro st
    simp [core]
  | cons e es ih =>
    intro st
    rw [List.foldl_cons, List.foldl_cons, ih (hstep st e),
      ih (hstep (core st) e), core_hstep st e]

theorem hstep_text_core (st : HTMLFacts) (c : Char) :
    core (hstep st (HEv.text c)) = core st := by
  cases st
  simp only [core, hstep, handle_data_char]
  split <;> simp_all

theorem core_foldl_text (s : List Char) : ∀ st : HTMLFacts,
    core ((s.map HEv.text).foldl hstep st) = core st := by
  induction s with
  | nil => intro st; rfl
  | cons c cs ih =>
    intro st
    rw [List.map_cons, List.foldl_cons, ih (hstep st (HEv.text c)),
      hstep_text_core]

theorem scanHTML_append (a b : List Char) : ∀ st,
    scanHTML (a ++ b) st = scanHTML a st ++ scanHTML b (scanState a st) := by
  induction a with
  | nil => intro st; simp [scanHTML, scanState]
  | cons c cs ih =>
    intro st
    simp [scanHTML, scanState, ih, List.append_assoc]

theorem scan_text_run (s : List Char) (h : ∀ c ∈ s, c ≠ '<') :
    scanHTML s TState.data = s.map HEv.text
    ∧ scanState s TState.data = TState.data := by
  induction s with
  | nil => exact ⟨rfl, rfl⟩
  | cons c cs ih =>
    have hc := h c (List.mem_cons_self c cs)
    have ihs := ih (fun x hx => h x (List.mem_cons_of_mem c hx))
    constructor
    · simp [scanHTML, tstep, hc, ihs.1]
    · simp [scanState, tstep, hc, ihs.2]

theorem pyReplaceAux_empty_subset (pat : List Char) :
    ∀ (fuel : Nat) (l : List Char) (c : Char),
      c ∈ pyReplaceAux pat [] fuel l → c ∈ l := by
  intro fuel
  induction fuel with
  | zero => intro l c h; exact h
  | succ f ih =>
    intro l c h
    cases l with
    | nil => simp [pyReplaceAux] at h
    | cons a as =>
      simp only [pyReplaceAux] at h
      split at h
      · simp only [List.nil_append] at h
        exact List.drop_subset _ _ (ih _ c h)
      · rcases List.mem_cons.mp h with rfl | h2
        · exact List.mem_cons_self _ _
        · exact List.mem_cons_of_mem _ (ih as c h2)

theorem pyReplace_subset (s pat : String) (c : Char)
    (h : c ∈ (pyReplace s pat "").data) : c ∈ s.data :=
  pyReplaceAux_empty_subset pat.data _ s.data c h

theorem pyStrip_cons_ne (c : Char) (rest : List Char) (hc : pySpace c = false) :
    (pyStripList (c :: rest)).length ≠ 0 := by
  unfold pyStripList
  have h1 : (c :: rest).dropWhile pySpace = c :: rest := by
    simp [List.dropWhile_cons, hc]
  rw [h1]
  intro hlen
  rw [List.length_reverse, List.length_eq_zero] at hlen
  have hall := List.dropWhile_eq_nil_iff.mp hlen
  have hcmem : c ∈ (c :: rest).reverse := by simp
  have := hall c hcmem
  rw [hc] at this
  cases this

/-- A character acceptable in a content-directory name. -/
def isSafeName (c : Char) : Bool :=
  c.isAlphanum ∨ c = '-' ∨ c = '_'

set_option maxRecDepth 40000

set_option maxHeartbeats 2000000

theorem core_has_doctype (f : HTMLFacts) : (core f).has_doctype = f.has_doctype := rfl

theorem core_has_html (f : HTMLFacts) : (core f).has_html = f.has_html := rfl

theorem core_has_head (f : HTMLFacts) : (core f).has_head = f.has_head := rfl

theorem core_has_body (f : HTMLFacts) : (core f).has_body = f.has_body := rfl

theorem core_links (f : HTMLFacts) : (core f).links = f.links := rfl

theorem core_asset_refs (f : HTMLFacts) : (core f).asset_refs = f.asset_refs := rfl

/-- The placeholder page parses to the expected facts for any directory
name made of safe characters: doctype, html, head and body present, a
single link back to the parent listing, and no asset references. -/
theorem feedHTML_placeholder (dirName : String)
    (hsafe : ∀ c ∈ dirName.data, isSafeName c = true) :
    (feedHTML (placeholderHtml dirName)).has_doctype = true
    ∧ (feedHTML (placeholderHtml dirName)).has_html = true
    ∧ (feedHTML (placeholderHtml dirName)).has_head = true
    ∧ (feedHTML (placeholderHtml dirName)).has_body = true
    ∧ (feedHTML (placeholderHtml dirName)).links = ["../"]
    ∧ (feedHTML (placeholderHtml dirName)).asset_refs = [] := by
  have hnum : ∀ c ∈ (pyReplace dirName "test-" "").data, c ≠ '<' := by
    intro c hc hlt
    have hs := hsafe c (pyReplace_subset dirName "test-" c hc)
    rw [hlt] at hs
    exact absurd hs (by decide)
  have htr := scan_text_run (pyReplace dirName "test-" "").data hnum
  have hdata : (placeholderHtml dirName).data
      = phPre.data ++ ((pyReplace dirName "test-" "").data
        ++ (phMid.data ++ ((pyReplace dirName "test-" "").data ++ phPost.data))) := by
    simp [placeholderHtml, String.data_append, List.append_assoc]
  have hst1 : scanState phPre.data TState.data = TState.data := by decide
  have hst2 : scanState phMid.data TState.data = TState.data := by decide
  have hdoc : searchDoctype (placeholderHtml dirName).data = true := by
    rw [hdata]
    rfl
  have hcorefinal : core (feedHTML (placeholderHtml dirName))
      = { has_doctype := true, has_html := true, has_head := true,
          has_body := true, has_title := true, links := ["../"],
          asset_refs := [], in_title := false, title_text := "" } := by
    unfold feedHTML
    rw [hdoc, hdata]
    rw [scanHTML_append, hst1, scanHTML_append, htr.1, htr.2,
      scanHTML_append, hst2, scanHTML_append, htr.1, htr.2]
    rw [List.foldl_append, List.foldl_append, List.foldl_append,
      List.foldl_append]
    rw [core_foldl (scanHTML phPost.data TState.data)]
    rw [core_foldl_text]
    rw [core_foldl (scanHTML phMid.data TState.data)]
    rw [core_foldl_text]
    decide
  refine ⟨?_, ?_, ?_, ?_, ?_, ?_⟩
  · rw [← core_has_doctype, hcorefinal]
  · rw [← core_has_html, hcorefinal]
  · rw [← core_has_head, hcorefinal]
  · rw [← core_has_body, hcorefinal]
  · rw [← core_links, hcorefinal]
  · rw [← core_asset_refs, hcorefinal]

theorem stripQF_clean (l : QPath)
    (h : ∀ seg ∈ l, seg.data.any qfStop = false) : stripQF l = l := by
  have hs := stripQF_clean_append l [] h
  rw [List.append_nil] at hs
  rw [hs, show stripQF [] = [] from rfl, List.append_nil]

theorem FS.existsPath_of_readFile (fs : FS) (p : QPath) (c : String)
    (h : fs.readFile p = some c) : fs.existsPath p = true := by
  simp only [FS.readFile, Option.map_eq_some'] at h
  obtain ⟨e, he, _⟩ := h
  have hp := List.find?_some he
  have hm := List.mem_of_find?_eq_some he
  simp only [FS.existsPath, decide_eq_true_eq, List.any_eq_true]
  exact Or.inl ⟨e, hm, hp⟩

theorem pyStripList_ne_of_head (l : List Char) (c : Char)
    (hh : l.head? = some c) (hc : pySpace c = false) :
    (pyStripList l).length ≠ 0 := by
  cases l with
  | nil => cases hh
  | cons a as =>
    injection hh with h
    rw [← h] at hc
    exact pyStrip_cons_ne a as hc

/-- Safe directory-name characters are not query/fragment delimiters. -/
theorem qfStop_of_safe (c : Char) (h : isSafeName c = true) :
    qfStop c = false := by
  by_contra hq
  have hq2 : qfStop c = true := by revert hq; cases qfStop c <;> simp
  simp only [qfStop] at hq2
  rcases of_decide_eq_true hq2 with rfl | rfl <;> exact absurd h (by decide)

theorem checkPage_placeholder_pass (probe : String → Int) (fs2 : FS)
    (report2 : QAReport) (dirName : String)
    (hname : dirName ≠ "")
    (hsafe : ∀ c ∈ dirName.data, isSafeName c = true)
    (hex2 : fs2.existsPath (PROJECTS_DIR ++ [dirName, "index.html"]) = true)
    (hread2 : fs2.readFile (PROJECTS_DIR ++ [dirName, "index.html"])
      = some (placeholderHtml dirName))
    (hextgt : fs2.existsPath (PROJECTS_DIR ++ [dirName, ".."]) = true)
    (hprobe : probe (PROJECTS_URL ++ dirName ++ "/index.html") = 200) :
    (checkPage ⟨fun s => (feedHTML s, none), probe⟩ false true report2 fs2
      dirName).1.status = "PASS" := by
  have hne1 : (dirName = "") = False := eq_false hname
  have hne2 : (dirName = ".") = False := by
    refine eq_false ?_
    intro h
    have hm : '.' ∈ dirName.data := by rw [h]; decide
    exact absurd (hsafe '.' hm) (by decide)
  have hne3 : (dirName = "..") = False := by
    refine eq_false ?_
    intro h
    have hm : '.' ∈ dirName.data := by rw [h]; decide
    exact absurd (hsafe '.' hm) (by decide)
  have hdata : (placeholderHtml dirName).data
      = phPre.data ++ ((pyReplace dirName "test-" "").data
        ++ (phMid.data ++ ((pyReplace dirName "test-" "").data ++ phPost.data))) := by
    simp [placeholderHtml, String.data_append, List.append_assoc]
  have hh : (placeholderHtml dirName).data.head? = some '<' := by
    rw [hdata]
    rfl
  have hstrip : ((pyStrip (placeholderHtml dirName)).length = 0) = False := by
    refine eq_false ?_
    show ¬ (String.mk (pyStripList (placeholderHtml dirName).data)).length = 0
    have hne := pyStripList_ne_of_head _ '<' hh (by decide)
    simpa [String.length] using hne
  have hF := feedHTML_placeholder dirName hsafe
  have hq : dirName.data.any qfStop = false := by
    rw [List.any_eq_false]
    intro c hc
    simp [qfStop_of_safe c (hsafe c hc)]
  have htgt : linkTarget (PROJECTS_DIR ++ [dirName]) "../"
      = PROJECTS_DIR ++ [dirName, ".."] := by
    have hclean : ∀ seg ∈ (PROJECTS_DIR ++ [dirName] ++ pathOfString "../"),
        seg.data.any qfStop = false := by
      have hl : PROJECTS_DIR ++ [dirName] ++ pathOfString "../"
          = ["public", "clawdbot", "projects", dirName, ".."] := rfl
      rw [hl]
      intro seg hseg
      simp only [List.mem_cons, List.not_mem_nil, or_false] at hseg
      rcases hseg with rfl | rfl | rfl | h | rfl
      · decide
      · decide
      · decide
      · subst h; exact hq
      · decide
    have habs : linkTarget (PROJECTS_DIR ++ [dirName]) "../"
        = stripQF (PROJECTS_DIR ++ [dirName] ++ pathOfString "../") := by
      simp [linkTarget, strStarts, leadsWith]
    rw [habs, stripQF_clean _ hclean]
    rfl
  have hs3 : strStarts3 "../" "http://" "https://" "//" = false := by decide
  simp only [checkPage, hex2, hread2, Option.getD_some, hstrip]
  simp only [not_true, Bool.true_eq_false, reduceIte, if_false, ite_false,
    false_and, iff_false, not_false_eq_true, if_true, ite_true]
  simp only [check_html_structure, List.foldl_cons, List.foldl_nil,
    hF.1, hF.2.1, hF.2.2.1, hF.2.2.2.1, if_true, ite_true, reduceIte]
  simp only [hprobe]
  simp only [check_internal_links, hF.2.2.2.2.1, hF.2.2.2.2.2,
    List.foldl_cons, List.foldl_nil, linkStep, check_assets, hs3, htgt, hextgt]
  simp [CheckResult.ok, CheckResult.init, url_accessible]

/-- Claim C6: for a content item whose page file is missing or
whitespace-empty, the check with auto-fix enabled records FIXED and the
placeholder is persisted; rerunning the same check on the resulting
filesystem records PASS (not FIXED): the placeholder satisfies every
structural and internal-link sub-check, assuming only that the page's
URL probes 200. -/
theorem claim_c6_placeholder_idempotent (probe : String → Int) (fs : FS)
    (report report2 : QAReport) (dirName : String)
    (hname : dirName ≠ "")
    (hsafe : ∀ c ∈ dirName.data, isSafeName c = true)
    (hmiss : fs.existsPath (PROJECTS_DIR ++ [dirName, "index.html"]) = false
      ∨ (pyStrip ((fs.readFile (PROJECTS_DIR ++ [dirName, "index.html"])).getD "")).length = 0)
    (hprobe : probe (PROJECTS_URL ++ dirName ++ "/index.html") = 200) :
    (checkPage ⟨fun s => (feedHTML s, none), probe⟩ false true report fs dirName).1.status
      = "FIXED"
    ∧ (checkPage ⟨fun s => (feedHTML s, none), probe⟩ false true report fs
        dirName).2.2.readFile (PROJECTS_DIR ++ [dirName, "index.html"])
      = some (placeholderHtml dirName)
    ∧ (checkPage ⟨fun s => (feedHTML s, none), probe⟩ false true report2
        (checkPage ⟨fun s => (feedHTML s, none), probe⟩ false true report fs
          dirName).2.2 dirName).1.status = "PASS" := by
  have hne1 : (dirName = "") = False := eq_false hname
  have hne2 : (dirName = ".") = False := by
    refine eq_false ?_
    intro h
    have hm : '.' ∈ dirName.data := by rw [h]; decide
    exact absurd (hsafe '.' hm) (by decide)
  have hne3 : (dirName = "..") = False := by
    refine eq_false ?_
    intro h
    have hm : '.' ∈ dirName.data := by rw [h]; decide
    exact absurd (hsafe '.' hm) (by decide)
  -- first run takes one of the two placeholder-fix branches
  have hrun1 : (checkPage ⟨fun s => (feedHTML s, none), probe⟩ false true report fs
        dirName).2.2
      = (fs.mkdirParents (PROJECTS_DIR ++ [dirName, "index.html"])).writeFile
          (PROJECTS_DIR ++ [dirName, "index.html"]) (placeholderHtml dirName)
      ∧ (checkPage ⟨fun s => (feedHTML s, none), probe⟩ false true report fs
          dirName).1.status = "FIXED" := by
    by_cases hex : fs.existsPath (PROJECTS_DIR ++ [dirName, "index.html"]) = true
    · have hm : (pyStrip ((fs.readFile (PROJECTS_DIR ++ [dirName, "index.html"])).getD "")).length = 0 := by
        rcases hmiss with hm | hm
        · rw [hex] at hm; cases hm
        · exact hm
      constructor <;>
        simp [checkPage, hex, hm, fix_create_placeholder, CheckResult.fixed]
    · have hexf : fs.existsPath (PROJECTS_DIR ++ [dirName, "index.html"]) = false := by
        revert hex
        cases fs.existsPath (PROJECTS_DIR ++ [dirName, "index.html"]) <;> simp
      constructor <;>
        simp [checkPage, hexf, fix_create_placeholder, CheckResult.fixed]
  have hread : (checkPage ⟨fun s => (feedHTML s, none), probe⟩ false true report fs
        dirName).2.2.readFile (PROJECTS_DIR ++ [dirName, "index.html"])
      = some (placeholderHtml dirName) := by
    rw [hrun1.1, FS.readFile_writeFile]
  refine ⟨hrun1.2, hread, ?_⟩
  -- the second run sees the placeholder
  have hex2 := FS.existsPath_of_readFile _ _ _ hread
  have hres : resolvePath (PROJECTS_DIR ++ [dirName, ".."]) = PROJECTS_DIR := by
    simp [resolvePath, PROJECTS_DIR, PUBLIC_DIR, hne1, hne2, hne3]
  have hresp : resolvePath (PROJECTS_DIR ++ [dirName, "index.html"])
      = PROJECTS_DIR ++ [dirName, "index.html"] := by
    simp [resolvePath, PROJECTS_DIR, PUBLIC_DIR, hne1, hne2, hne3]
  have hextgt : (checkPage ⟨fun s => (feedHTML s, none), probe⟩ false true report fs
        dirName).2.2.existsPath (PROJECTS_DIR ++ [dirName, ".."]) = true := by
    rw [hrun1.1]
    simp only [FS.existsPath, FS.writeFile, FS.mkdirParents, hres, hresp]
    simp [pathAncestors, List.range, List.range.loop, PROJECTS_DIR, PUBLIC_DIR]
  exact checkPage_placeholder_pass probe _ report2 dirName hname hsafe hex2
    hread hextgt hprobe

/-- Witness for C6: on an empty filesystem and an always-200 probe, the
page check for `test-3` records FIXED, writes the placeholder, and a
rerun on the resulting filesystem records PASS. -/
theorem claim_c6_placeholder_idempotent_witness :
    ("test-3" : String) ≠ ""
    ∧ (checkPage ⟨fun s => (feedHTML s, none), fun _ => 200⟩ false true
        QAReport.empty fsEmpty "test-3").1.status = "FIXED"
    ∧ (checkPage ⟨fun s => (feedHTML s, none), fun _ => 200⟩ false true
        QAReport.empty fsEmpty "test-3").2.2.readFile
        (PROJECTS_DIR ++ ["test-3", "index.html"])
      = some (placeholderHtml "test-3")
    ∧ (checkPage ⟨fun s => (feedHTML s, none), fun _ => 200⟩ false true
        QAReport.empty
        (checkPage ⟨fun s => (feedHTML s, none), fun _ => 200⟩ false true
          QAReport.empty fsEmpty "test-3").2.2 "test-3").1.status = "PASS" := by
  have h := claim_c6_placeholder_idempotent (fun _ => 200) fsEmpty
    QAReport.empty QAReport.empty "test-3" (by decide) (by decide)
    (Or.inl (by decide)) rfl
  exact ⟨by decide, h.1, h.2.1, h.2.2⟩

/-- Witness for C3: `"{"` patches to `"[{]"`, which does not reparse, so
FAIL and no write; `"[1,]"` patches to `"[1]"`, which reparses, so the
repaired array is written. -/
theorem claim_c3_json_repair_witness :
    ((fix_broken_json (CheckResult.init "index.json validation" "data") "\x7b" fsEmpty).1.status
        = "FAIL"
      ∧ (fix_broken_json (CheckResult.init "index.json validation" "data") "\x7b" fsEmpty).2
        = fsEmpty)
    ∧ ((fix_broken_json (CheckResult.init "index.json validation" "data") "[1,]" fsEmpty).1.status
        = "FIXED"
      ∧ (fix_broken_json (CheckResult.init "index.json validation" "data") "[1,]" fsEmpty).2
        = fsEmpty.writeFile INDEX_JSON (jdumps (Json.arr [Json.num "1"]) ++ "\n")) :=
  ⟨(claim_c3_json_repair _ "\x7b" _).1 rfl,
   (claim_c3_json_repair _ "[1,]" _).2 (Json.arr [Json.num "1"]) rfl⟩

end QACheck
